import Mathlib

/-!
Shallow embedding of the Production Tracker credit ledger.

Sources embedded here:
* `src/bars_and_tabs/repair_orders.py` — `log_credit`, `safe_log_credit`,
  `update_ro_hours`, `apply_uncredited_hours` (the audit-log writer and the
  close-time reconciliation on the `repair_orders` schema);
* `src/backups/main.py` — the `EfficiencyTab` baseline/adjustment ledger:
  `_stage_index`, `_is_at_or_after`, `_is_after`, `first_transition_matching`,
  `_ensure_baseline`, `_get_baseline`, `_sum_adjusted`, `_add_adjustment`,
  `_calc_credits`, `_apply_overrides`, `_on_credit_item_changed` (override
  upsert), `_delete_selected_credit`, `_on_stage_changed`.

Modelling conventions:
* Python floats are modelled as rationals (`ℚ`); the source tolerances
  `1e-6` and `1e-5` become the exact rationals `1/1000000` and `1/100000`.
* SQL tables are lists of rows in insertion (rowid) order; `SELECT ...
  WHERE` is `List.filter`/`List.find?`, append-only `INSERT` is list append,
  autoincrement ids are threaded explicitly.
* SQL `NULL` in the `tech` column of `credit_adjustments` is merged with
  the empty string (the writers only ever store strings, and every read
  treats `NULL` and `''` alike).
* `datetime.strptime(s, "%m-%d-%Y")` is modelled for the zero-padded
  `MM-dd-yyyy` strings the application itself writes (`QDate.toString`).
-/

namespace ProductionTracker

/-! ## String helpers (models of the Python `str` operations used) -/

def isSpaceChar (c : Char) : Bool :=
  c = ' ' || c = '\t' || c = '\n' || c = '\r'

/-- Python `str.strip()` (ASCII whitespace suffices for the strings here). -/
def strTrim (s : String) : String :=
  String.mk (((s.data.dropWhile isSpaceChar).reverse.dropWhile isSpaceChar).reverse)

/-- Python `str.lower()` (the stage names involved are ASCII). -/
def strLower (s : String) : String :=
  String.mk (s.data.map Char.toLower)

/-- Python `str.startswith`. -/
def strStarts (s p : String) : Bool :=
  p.data.isPrefixOf s.data

def charsContain (pat : List Char) : List Char → Bool
  | [] => pat.isPrefixOf []
  | c :: cs => pat.isPrefixOf (c :: cs) || charsContain pat cs

/-- Python `p in s` substring test. -/
def strContains (s p : String) : Bool :=
  charsContain p.data s.data

/-! ## Decimal formatting (model of Python `f"{x:.2f}"` and `float()` reparse) -/

def natCharsAux : Nat → Nat → List Char → List Char
  | _, 0, acc => acc
  | 0, _, acc => acc
  | fuel + 1, n + 1, acc =>
    natCharsAux fuel ((n + 1) / 10) (Nat.digitChar ((n + 1) % 10) :: acc)

def natStr (n : Nat) : String :=
  if n = 0 then "0" else String.mk (natCharsAux n n [])

/-- `f"{q:.2f}"` for `q ≥ 0`: round to two decimals and print.  (Ties at the
exact half-cent round up here where CPython rounds half-even; no claim below
depends on behaviour at exact half-cent ties.) -/
def fmt2abs (q : ℚ) : String :=
  let n : Nat := (⌊q * 100 + 1/2⌋).toNat
  natStr (n / 100) ++ "." ++ (if n % 100 < 10 then "0" ++ natStr (n % 100) else natStr (n % 100))

/-- `f"{q:.2f}"`. -/
def fmt2 (q : ℚ) : String :=
  if q < 0 then "-" ++ fmt2abs (-q) else fmt2abs q

/-- The rational value obtained by `float()`-reparsing the `f"{q:.2f}"` text. -/
def round2 (q : ℚ) : ℚ :=
  if q < 0 then -((⌊(-q) * 100 + 1/2⌋ : ℚ) / 100) else ((⌊q * 100 + 1/2⌋ : ℚ) / 100)

/-! ## The `repair_orders.py` schema: audit writer and close reconciliation -/

/-- A row of the `credit_audit` table. -/
structure AuditEntry where
  date : String
  ro_number : Nat
  employee : String
  hours : ℚ
  note : String
deriving DecidableEq

/-- A row of the `repair_orders` table (the fields the embedded code reads). -/
structure RepairOrderRow where
  id : Nat
  ro_number : Nat
  tech : String
  painter : String
  mechanic : String
  ro_hours : ℚ
  body_hours : ℚ
  refinish_hours : ℚ
  mechanical_hours : ℚ
  hours_taken : ℚ
  hours_remaining : ℚ
deriving DecidableEq

/-- A row of the `ro_stage_history` table (in insertion order). -/
structure StageHistRow where
  id : Nat
  ro_id : Nat
  stage : String
deriving DecidableEq

structure RODb where
  repair_orders : List RepairOrderRow
  ro_stage_history : List StageHistRow
  credit_audit : List AuditEntry
deriving DecidableEq

/-- `SELECT 1 FROM repair_orders WHERE ro_number=?` is non-empty. -/
def roExists (db : RODb) (ro : Nat) : Bool :=
  db.repair_orders.any (fun r => r.ro_number = ro)

/-- The `(ro_number, employee, note)` key match on `credit_audit` rows. -/
def keyMatch (ro : Nat) (emp note : String) (e : AuditEntry) : Bool :=
  e.ro_number = ro && e.employee = emp && e.note = note

/-- `SELECT 1 FROM credit_audit WHERE ro_number=? AND employee=? AND note=?` is non-empty. -/
def auditHas (db : RODb) (ro : Nat) (employee note : String) : Bool :=
  db.credit_audit.any (keyMatch ro employee note)

/-- `log_credit` (repair_orders.py:23): the non-idempotent audit writer. -/
def log_credit (db : RODb) (now : String) (ro : Nat) (employee : String)
    (hours : ℚ) (note : String) : RODb :=
  if employee = "" ∨ employee = "Unassigned" ∨ hours = 0 then db
  else if roExists db ro then
    { db with credit_audit := db.credit_audit ++ [⟨now, ro, employee, hours, note⟩] }
  else db

/-- `safe_log_credit` (repair_orders.py:625): the idempotent audit writer. -/
def safe_log_credit (db : RODb) (now : String) (ro : Nat) (employee : String)
    (hours : ℚ) (note : String) : RODb :=
  if employee = "" ∨ employee = "Unassigned" ∨ hours = 0 then db
  else if auditHas db ro employee note then db
  else { db with credit_audit := db.credit_audit ++ [⟨now, ro, employee, hours, note⟩] }

/-- `SELECT ... FROM repair_orders WHERE id=?` (first row). -/
def findRO (db : RODb) (ro_id : Nat) : Option RepairOrderRow :=
  db.repair_orders.find? (fun r => r.id = ro_id)

def RO_STAGES : List String :=
  ["Scheduled", "Intake", "Disassembly", "Body", "Refinish",
   "Reassembly", "Mechanical", "Detail", "QC", "Delivered"]

/-- `stage_order[name]` for the names that occur in `update_ro_hours`
(all of which are members of `RO_STAGES`). -/
def roStageIdx (s : String) : Nat :=
  (RO_STAGES.indexOf? s).getD 0

/-- `UPDATE repair_orders SET hours_taken=?, hours_remaining=? WHERE id=?`. -/
def setHours (db : RODb) (ro_id : Nat) (taken remaining : ℚ) : RODb :=
  { db with repair_orders := db.repair_orders.map (fun r =>
      if r.id = ro_id then { r with hours_taken := taken, hours_remaining := remaining } else r) }

/-- The stage indices of an RO's history rows that appear in `RO_STAGES`
(`[stage_order[s] for s in stages if s in stage_order]`). -/
def uroIndices (db : RODb) (ro_id : Nat) : List Nat :=
  ((db.ro_stage_history.filter (fun h => h.ro_id = ro_id)).map StageHistRow.stage).filterMap
    (fun s => RO_STAGES.indexOf? s)

/-- The four crediting guards of `update_ro_hours`. -/
@[reducible] def uroCond1 (furthest : Nat) (r : RepairOrderRow) : Prop :=
  furthest > roStageIdx "Body" ∧ r.body_hours > 0 ∧ r.tech ≠ "" ∧ r.tech ≠ "Unassigned"

@[reducible] def uroCond2 (furthest : Nat) (r : RepairOrderRow) : Prop :=
  furthest > roStageIdx "Reassembly" ∧ r.body_hours > 0 ∧ r.tech ≠ "" ∧ r.tech ≠ "Unassigned"

@[reducible] def uroCond3 (furthest : Nat) (r : RepairOrderRow) : Prop :=
  furthest > roStageIdx "Refinish" ∧ r.refinish_hours > 0 ∧ r.painter ≠ "" ∧ r.painter ≠ "Unassigned"

@[reducible] def uroCond4 (furthest : Nat) (r : RepairOrderRow) : Prop :=
  furthest > roStageIdx "Mechanical" ∧ r.mechanical_hours > 0 ∧ r.mechanic ≠ "" ∧ r.mechanic ≠ "Unassigned"

/-- The body of `update_ro_hours` after the RO row lookup. -/
def uroCore (db : RODb) (now : String) (ro_id : Nat) (r : RepairOrderRow) : RODb :=
  match (uroIndices db ro_id).max? with
  | none => setHours db ro_id 0 (max (r.ro_hours - 0) 0)
  | some furthest =>
    let db1 := if uroCond1 furthest r then
        safe_log_credit db now r.ro_number r.tech (r.body_hours * (6/10)) "Body phase completed (60%)"
      else db
    let db2 := if uroCond2 furthest r then
        safe_log_credit db1 now r.ro_number r.tech (r.body_hours * (4/10)) "Reassembly phase completed (40%)"
      else db1
    let db3 := if uroCond3 furthest r then
        safe_log_credit db2 now r.ro_number r.painter r.refinish_hours "Refinish phase completed"
      else db2
    let db4 := if uroCond4 furthest r then
        safe_log_credit db3 now r.ro_number r.mechanic r.mechanical_hours "Mechanical phase completed"
      else db3
    let taken := (if uroCond1 furthest r then r.body_hours * (6/10) else 0) +
      (if uroCond2 furthest r then r.body_hours * (4/10) else 0) +
      (if uroCond3 furthest r then r.refinish_hours else 0) +
      (if uroCond4 furthest r then r.mechanical_hours else 0)
    setHours db4 ro_id taken (max (r.ro_hours - taken) 0)

/-- `update_ro_hours` (repair_orders.py:647): milestone recompute against the
`ro_stage_history` log, posting through the idempotent writer. -/
def update_ro_hours (db : RODb) (now : String) (ro_id : Nat) : RODb :=
  match findRO db ro_id with
  | none => db
  | some r => uroCore db now ro_id r

/-- Python dict update `m[k] = m.get(k, 0) + v` (insertion order preserved). -/
def dictAdd (m : List (String × ℚ)) (k : String) (v : ℚ) : List (String × ℚ) :=
  if m.any (fun p => p.1 = k) then
    m.map (fun p => if p.1 = k then (p.1, p.2 + v) else p)
  else m ++ [(k, v)]

/-- The `expected` dict built by `apply_uncredited_hours` (repair_orders.py:731). -/
def expectedMap (r : RepairOrderRow) : List (String × ℚ) :=
  let m0 : List (String × ℚ) := []
  let m1 := if r.tech ≠ "" ∧ r.tech ≠ "Unassigned" then dictAdd m0 r.tech r.body_hours else m0
  let m2 := if r.painter ≠ "" ∧ r.painter ≠ "Unassigned" then dictAdd m1 r.painter r.refinish_hours else m1
  if r.mechanic ≠ "" ∧ r.mechanic ≠ "Unassigned" then dictAdd m2 r.mechanic r.mechanical_hours else m2

/-- `SELECT employee, SUM(hours) FROM credit_audit WHERE ro_number=? GROUP BY employee`,
then `.get(emp, 0)`. -/
def creditedFor (audit : List AuditEntry) (ro : Nat) (emp : String) : ℚ :=
  ((audit.filter (fun e => e.ro_number = ro ∧ e.employee = emp)).map AuditEntry.hours).sum

/-- The reconciliation loop body of `apply_uncredited_hours`: the credited
totals come from the `snapshot` read before the loop, as in the source. -/
def closeStep (snapshot : RODb) (now : String) (ro : Nat) (s : RODb) (p : String × ℚ) : RODb :=
  let diff := p.2 - creditedFor snapshot.credit_audit ro p.1
  if diff ≠ 0 then log_credit s now ro p.1 diff "Adjustment on close (recalc)" else s

/-- `apply_uncredited_hours` (repair_orders.py:713): close-time reconciliation. -/
def apply_uncredited_hours (db : RODb) (now : String) (ro_id : Nat) : RODb :=
  match findRO db ro_id with
  | none => db
  | some r => (expectedMap r).foldl (closeStep db now r.ro_number) db

/-! ## The `backups/main.py` schema: the EfficiencyTab baseline/adjustment ledger -/

/-- A row of `stage_transitions` (`id` is the autoincrement primary key). -/
structure Transition where
  id : Nat
  ro_number : String
  from_stage : String
  to_stage : String
  date : String
deriving DecidableEq

/-- A row of `credit_baseline` (PRIMARY KEY (ro_number, milestone)). -/
structure BaselineRow where
  ro_number : String
  milestone : String
  base_hours : ℚ
deriving DecidableEq

/-- A row of `credit_adjustments`. -/
structure AdjRow where
  id : Nat
  ro_number : String
  milestone : String
  from_stage : String
  to_stage : String
  date : String
  tech : String
  delta_hours : ℚ
  share : ℚ
deriving DecidableEq

/-- A row of `credit_overrides` (UNIQUE (ro_number, from_stage, to_stage, note)). -/
structure OverrideRow where
  ro_number : String
  from_stage : String
  to_stage : String
  note : String
  date : Option String
  tech : Option String
  hours : Option ℚ
deriving DecidableEq

/-- A row of `records` (the fields `_calc_credits` reads). -/
structure RecordRow where
  ro_number : String
  stage : String
  body_hours : ℚ
  paint_hours : ℚ
  body_tech_name : String
  painter_name : String
  hours_taken : ℚ
deriving DecidableEq

/-- The EfficiencyTab database, plus the `STAGES` configuration list. -/
structure EffDb where
  stages : List String
  records : List RecordRow
  stage_transitions : List Transition
  credit_baseline : List BaselineRow
  credit_adjustments : List AdjRow
  credit_overrides : List OverrideRow
  next_trans_id : Nat
  next_adj_id : Nat
deriving DecidableEq

def DEFAULT_STAGES : List String :=
  ["New Entry", "Intake", "Disassembly", "Body", "Paint", "Reassembly", "Detail", "QC", "Deliver"]

def digitVal (c : Char) : Nat := c.toNat - 48

/-- `parse_date_str` (backups/main.py:231): `strptime(s, "%m-%d-%Y").date()`,
modelled for the zero-padded `MM-dd-yyyy` strings the application writes.
Returns `(year, month, day)` so that `<` on the tuple is chronological order. -/
def parse_date_str (s : String) : Option (Nat × Nat × Nat) :=
  match s.data with
  | [m1, m2, '-', d1, d2, '-', y1, y2, y3, y4] =>
    if m1.isDigit && m2.isDigit && d1.isDigit && d2.isDigit &&
       y1.isDigit && y2.isDigit && y3.isDigit && y4.isDigit then
      let m := 10 * digitVal m1 + digitVal m2
      let d := 10 * digitVal d1 + digitVal d2
      let y := 1000 * digitVal y1 + 100 * digitVal y2 + 10 * digitVal y3 + digitVal y4
      if 1 ≤ m ∧ m ≤ 12 ∧ 1 ≤ d ∧ d ≤ 31 then some (y, m, d) else none
    else none
  | _ => none

/-- SQLite BINARY collation on TEXT: lexicographic comparison of the
code points (all strings involved are ASCII, so this is the byte order). -/
def charsLT : List Char → List Char → Bool
  | [], [] => false
  | [], _ :: _ => true
  | _ :: _, [] => false
  | a :: as, b :: bs => a.toNat < b.toNat || (a.toNat = b.toNat && charsLT as bs)

def strLT (s t : String) : Bool := charsLT s.data t.data

/-- SQL `ORDER BY date ASC, id ASC` on the TEXT `date` column: lexicographic
string comparison of the stored `MM-dd-yyyy` strings, ties by rowid. -/
def transLE (t u : Transition) : Bool :=
  strLT t.date u.date || (t.date = u.date && t.id ≤ u.id)

def insertTrans (t : Transition) : List Transition → List Transition
  | [] => [t]
  | u :: us => if transLE t u then t :: u :: us else u :: insertTrans t us

/-- The row order produced by `SELECT ... FROM stage_transitions ORDER BY date ASC, id ASC`
(backups/main.py:936).  `(date, id)` is a total order (ids are unique), so any
sort realises it. -/
def orderByDateId (ts : List Transition) : List Transition :=
  ts.foldr insertTrans []

/-- The per-RO transition list `by_ro[ro]` of `_calc_credits`: rows in SQL
order, rows whose date fails `parse_date_str` skipped. -/
def transitionsFor (db : EffDb) (ro : String) : List Transition :=
  ((orderByDateId db.stage_transitions).filter
    (fun t => (parse_date_str t.date).isSome)).filter (fun t => t.ro_number = ro)

/-- `_stage_index` (backups/main.py:887): case-insensitive position in `STAGES`, `-1` if absent. -/
def stage_index (stages : List String) (name : String) : Int :=
  match (stages.map strLower).indexOf? (strLower name) with
  | some i => (i : Int)
  | none => -1

/-- `_is_at_or_after` (backups/main.py:893). -/
def is_at_or_after (stages : List String) (stage_name target_name : String) : Bool :=
  stage_index stages stage_name ≥ stage_index stages target_name

/-- `_is_after` (backups/main.py:896). -/
def is_after (stages : List String) (stage_name target_name : String) : Bool :=
  stage_index stages stage_name > stage_index stages target_name

/-- The matching predicate of `first_transition_matching`'s loop body. -/
def transMatches (stages : List String) (frm : String)
    (to_at_least to_after : Option String) (t : Transition) : Bool :=
  strLower t.from_stage = strLower frm &&
  (match to_at_least with | some x => is_at_or_after stages t.to_stage x | none => true) &&
  (match to_after with | some x => is_after stages t.to_stage x | none => true)

/-- `first_transition_matching` (backups/main.py:958). -/
def first_transition_matching (stages : List String) (trans_list : List Transition)
    (frm : String) (to_at_least to_after : Option String) : Option Transition :=
  trans_list.find? (transMatches stages frm to_at_least to_after)

/-- `SELECT base_hours FROM credit_baseline WHERE ro_number=? AND milestone=?` is non-empty. -/
def baselineExists (db : EffDb) (ro milestone : String) : Bool :=
  db.credit_baseline.any (fun b => b.ro_number = ro && b.milestone = milestone)

/-- `_ensure_baseline` (backups/main.py:900): insert-if-absent, never update. -/
def ensure_baseline (db : EffDb) (ro milestone : String) (base_hours : ℚ) : EffDb :=
  if baselineExists db ro milestone then db
  else { db with credit_baseline := db.credit_baseline ++ [⟨ro, milestone, base_hours⟩] }

/-- `_get_baseline` (backups/main.py:908). -/
def get_baseline (db : EffDb) (ro milestone : String) : ℚ :=
  match db.credit_baseline.find? (fun b => b.ro_number = ro && b.milestone = milestone) with
  | some b => b.base_hours
  | none => 0

/-- `_sum_adjusted` (backups/main.py:913). -/
def sum_adjusted (db : EffDb) (ro milestone : String) : ℚ :=
  ((db.credit_adjustments.filter
    (fun a => a.ro_number = ro && a.milestone = milestone)).map AdjRow.delta_hours).sum

/-- The residual tolerance `1e-6` of the ledger. -/
def eps : ℚ := 1 / 1000000

/-- `_add_adjustment` (backups/main.py:919). -/
def add_adjustment (db : EffDb) (ro milestone from_stage to_stage tech : String)
    (delta_hours share : ℚ) (when_date : String) : EffDb :=
  if |delta_hours| < eps then db
  else { db with
    credit_adjustments := db.credit_adjustments ++
      [⟨db.next_adj_id, ro, milestone, from_stage, to_stage, when_date, tech, delta_hours, share⟩],
    next_adj_id := db.next_adj_id + 1 }

/-- A generated credit row (the dicts accumulated in `credits_rows`). -/
structure CreditRow where
  date : String
  ro : String
  from_stage : String
  to_stage : String
  tech : String
  hours : ℚ
  note : String
deriving DecidableEq

/-- One milestone block of `_calc_credits`: name, transition pattern,
note label, and payout share. -/
structure MilestoneCfg where
  milestone : String
  frm : String
  to_at_least : Option String
  to_after : Option String
  label : String
  share : ℚ
deriving DecidableEq

def BODY60 : MilestoneCfg := ⟨"body60", "Body", some "Paint", none, "Body 60%", 6/10⟩
def BODY40 : MilestoneCfg := ⟨"body40", "Reassembly", none, some "Reassembly", "Body 40%", 4/10⟩
def PAINT100 : MilestoneCfg := ⟨"paint100", "Paint", none, some "Paint", "Refinish 100%", 1⟩

/-- The baseline credit note, e.g. `f"Body 60% of {base:.2f}h on Body→{to}"`. -/
def baselineNote (cfg : MilestoneCfg) (base : ℚ) (to_stage : String) : String :=
  cfg.label ++ " of " ++ fmt2 base ++ "h on " ++ cfg.frm ++ "→" ++ to_stage

/-- The supplement note, e.g. `f"Supplement {sign}{abs(delta):.2f}h (Body 60%)"`. -/
def supplementNote (delta : ℚ) (cfg : MilestoneCfg) : String :=
  "Supplement " ++ (if delta ≥ 0 then "+" else "-") ++ fmt2 |delta| ++ "h (" ++ cfg.label ++ ")"

def adjLE (a b : AdjRow) : Bool := a.id ≤ b.id

def insertAdj (a : AdjRow) : List AdjRow → List AdjRow
  | [] => [a]
  | b :: bs => if adjLE a b then a :: b :: bs else b :: insertAdj a bs

/-- `SELECT ... FROM credit_adjustments WHERE ro_number=? AND milestone=? ORDER BY id ASC`. -/
def adjustmentsFor (db : EffDb) (ro milestone : String) : List AdjRow :=
  (db.credit_adjustments.filter
    (fun a => a.ro_number = ro && a.milestone = milestone)).foldr insertAdj []

/-- One milestone block of `_calc_credits` (backups/main.py:980-1012 and its
two clones): match the pattern, freeze the baseline, close the residual with
one adjustment, then emit the baseline credit row and one row per adjustment. -/
def processMilestone (stages : List String) (trans_list : List Transition) (today : String)
    (ro : String) (bucket : ℚ) (tech : String) (cfg : MilestoneCfg)
    (acc : EffDb × List CreditRow) : EffDb × List CreditRow :=
  match first_transition_matching stages trans_list cfg.frm cfg.to_at_least cfg.to_after with
  | none => acc
  | some t =>
    if tech = "" ∨ ¬ bucket > 0 then acc
    else
      let db1 := ensure_baseline acc.1 ro cfg.milestone bucket
      let base := get_baseline db1 ro cfg.milestone
      let applied := sum_adjusted db1 ro cfg.milestone
      let unapplied := bucket - (base + applied)
      let db2 := if |unapplied| ≥ eps then
          add_adjustment db1 ro cfg.milestone t.from_stage t.to_stage tech unapplied cfg.share today
        else db1
      let baseRow : CreditRow :=
        ⟨t.date, ro, t.from_stage, t.to_stage, tech, base * cfg.share, baselineNote cfg base t.to_stage⟩
      let adjRows := (adjustmentsFor db2 ro cfg.milestone).map (fun a =>
        ⟨a.date, ro, a.from_stage, a.to_stage, (if a.tech = "" then tech else a.tech),
         a.delta_hours * a.share, supplementNote a.delta_hours cfg⟩)
      (db2, acc.2 ++ [baseRow] ++ adjRows)

/-- The three milestone blocks of `_calc_credits` for one `records` row:
Body 60%, Body 40%, Paint 100%, with their buckets and responsible techs. -/
def recordMilestones (r : RecordRow) : List (MilestoneCfg × ℚ × String) :=
  [(BODY60, r.body_hours, strTrim r.body_tech_name),
   (BODY40, r.body_hours, strTrim r.body_tech_name),
   (PAINT100, r.paint_hours, strTrim r.painter_name)]

/-- The `_calc_credits` loop body for one `records` row. -/
def calcRecordStep (stages : List String) (trans_list : List Transition) (today : String)
    (r : RecordRow) (acc : EffDb × List CreditRow) : EffDb × List CreditRow :=
  (recordMilestones r).foldl
    (fun a m => processMilestone stages trans_list today r.ro_number m.2.1 m.2.2 m.1 a) acc

/-- Chronological (lexicographic) order on parsed `(year, month, day)` dates. -/
def dateLT (a b : Nat × Nat × Nat) : Bool :=
  a.1 < b.1 || (a.1 = b.1 && (a.2.1 < b.2.1 || (a.2.1 = b.2.1 && a.2.2 < b.2.2)))

/-- Sort key of the final `credits_rows.sort` (backups/main.py:1082):
`(parse_date_str(date) or datetime.min.date(), ro)`. -/
def rowKeyLT (a b : CreditRow) : Bool :=
  let ka := (parse_date_str a.date).getD (1, 1, 1)
  let kb := (parse_date_str b.date).getD (1, 1, 1)
  dateLT ka kb || (ka = kb && strLT a.ro b.ro)

def insertRowStable (x : CreditRow) : List CreditRow → List CreditRow
  | [] => [x]
  | y :: ys => if rowKeyLT y x then y :: insertRowStable x ys else x :: y :: ys

/-- Python's stable `list.sort(key=...)`. -/
def sortRows (rows : List CreditRow) : List CreditRow :=
  rows.foldr insertRowStable []

/-- `_calc_credits` (backups/main.py:930): the recompute pass.  The transition
lists and the `STAGES` configuration are read once, up front, as in the source;
the pass itself touches only `credit_baseline`/`credit_adjustments`. -/
def calc_credits (db : EffDb) (today : String) : EffDb × List CreditRow :=
  let out := db.records.foldl
    (fun acc r => calcRecordStep db.stages (transitionsFor db r.ro_number) today r acc)
    (db, [])
  (out.1, sortRows out.2)

/-- The override found for a generated row's identity key
(`SELECT date, tech, hours FROM credit_overrides WHERE ro_number=? AND from_stage=? AND to_stage=? AND note=?`). -/
def overrideFor (db : EffDb) (r : CreditRow) : Option OverrideRow :=
  db.credit_overrides.find? (fun o =>
    o.ro_number = r.ro && o.from_stage = r.from_stage && o.to_stage = r.to_stage && o.note = r.note)

/-- The per-row body of `_apply_overrides` (backups/main.py:1133). -/
def apply_override_row (db : EffDb) (r : CreditRow) : CreditRow :=
  match overrideFor db r with
  | none => r
  | some o =>
    let r1 := match o.date with
      | some d => if strTrim d ≠ "" then { r with date := d } else r
      | none => r
    let r2 := match o.tech with
      | some tc => if strTrim tc ≠ "" then { r1 with tech := tc } else r1
      | none => r1
    match o.hours with
    | some h => { r2 with hours := h }
    | none => r2

/-- `_apply_overrides` (backups/main.py:1133). -/
def apply_overrides (db : EffDb) (rows : List CreditRow) : List CreditRow :=
  rows.map (apply_override_row db)

/-- The rendered credit table: `_calc_credits` then `_apply_overrides`
(backups/main.py:766-767). -/
def generatedCreditRows (db : EffDb) (today : String) : List CreditRow :=
  apply_overrides (calc_credits db today).1 (calc_credits db today).2

/-- The override upsert of `_on_credit_item_changed` (backups/main.py:832):
`INSERT ... ON CONFLICT(ro_number, from_stage, to_stage, note) DO UPDATE`. -/
def upsert_override (db : EffDb) (ro frm toS note : String)
    (date tech : String) (hours : ℚ) : EffDb :=
  if db.credit_overrides.any (fun o =>
      o.ro_number = ro && o.from_stage = frm && o.to_stage = toS && o.note = note) then
    { db with credit_overrides := db.credit_overrides.map (fun o =>
        if o.ro_number = ro && o.from_stage = frm && o.to_stage = toS && o.note = note then
          { o with date := some date, tech := some tech, hours := some hours }
        else o) }
  else
    { db with credit_overrides :=
        db.credit_overrides ++ [⟨ro, frm, toS, note, some date, some tech, some hours⟩] }

/-- `DELETE FROM credit_overrides WHERE ro_number=? AND from_stage=? AND to_stage=? AND note=?`. -/
def delete_override (db : EffDb) (ro frm toS note : String) : EffDb :=
  { db with credit_overrides := db.credit_overrides.filter (fun o =>
      ¬ (o.ro_number = ro ∧ o.from_stage = frm ∧ o.to_stage = toS ∧ o.note = note)) }

/-- `if note.startswith("Body 60%") or ... or note.startswith("Refinish 100%")`. -/
def isBaselineNote (note : String) : Bool :=
  strStarts note "Body 60%" || strStarts note "Body 40%" || strStarts note "Refinish 100%"

/-- The milestone/share recovery from a supplement note
(backups/main.py:1235-1242). -/
def noteMilestone (note : String) : Option (String × ℚ) :=
  if strContains note "(Body 60%)" then some ("body60", 6/10)
  else if strContains note "(Body 40%)" then some ("body40", 4/10)
  else if strContains note "(Refinish 100%)" then some ("paint100", 1)
  else none

/-- The adjustment-row match of the `DELETE FROM credit_adjustments` statement
(backups/main.py:1258-1263); SQL `NULL` tech is merged with `''`. -/
def adjDeleteMatch (ro milestone frm toS date tech : String) (delta : ℚ) (a : AdjRow) : Bool :=
  a.ro_number = ro && a.milestone = milestone && a.from_stage = frm && a.to_stage = toS &&
  a.date = date && (a.tech = tech || (a.tech = "" && tech = "")) &&
  decide (|a.delta_hours - delta| < 1 / 100000)

/-- `_delete_selected_credit` (backups/main.py:1200) for one selected row of the
credit table.  The table cell texts are the rendered row's fields; the Credit
Hours cell holds `f"{hours:.2f}"`, so `float(hrs_txt)` reads back `round2 r.hours`. -/
def delete_selected_credit_row (db : EffDb) (r : CreditRow) : EffDb :=
  let date := strTrim r.date
  let ro := strTrim r.ro
  let frm := strTrim r.from_stage
  let toS := strTrim r.to_stage
  let tech := strTrim r.tech
  let note := strTrim r.note
  if isBaselineNote note then db
  else
    let fallthrough := delete_override db ro frm toS note
    if strStarts note "Supplement " then
      match noteMilestone note with
      | some (milestone, share) =>
        let hours_val := round2 r.hours
        let sign : ℚ := if strContains note "Supplement -" then -1 else 1
        let delta := |hours_val| / share * sign
        let remaining := db.credit_adjustments.filter
          (fun a => ¬ adjDeleteMatch ro milestone frm toS date tech delta a)
        if remaining.length < db.credit_adjustments.length then
          { db with credit_adjustments := remaining }
        else fallthrough
      | none => fallthrough
    else fallthrough

/-- `UPDATE records SET body_hours=? WHERE ro_number=?`: the collaborator
bucket edit (backups/main.py:609, field update path). -/
def set_body_hours (db : EffDb) (ro : String) (v : ℚ) : EffDb :=
  { db with records := db.records.map (fun r =>
      if r.ro_number = ro then { r with body_hours := v } else r) }

/-- `UPDATE records SET paint_hours=? WHERE ro_number=?`. -/
def set_paint_hours (db : EffDb) (ro : String) (v : ℚ) : EffDb :=
  { db with records := db.records.map (fun r =>
      if r.ro_number = ro then { r with paint_hours := v } else r) }

/-- `_on_stage_changed` (backups/main.py:1085): log one transition row and
update the record's stage. -/
def on_stage_changed (db : EffDb) (today : String) (ro_number new_stage : String) : EffDb :=
  match db.records.find? (fun r => r.ro_number = ro_number) with
  | none => db
  | some r =>
    if r.stage = "" ∨ r.stage = new_stage then db
    else
      { db with
        stage_transitions := db.stage_transitions ++
          [⟨db.next_trans_id, ro_number, r.stage, new_stage, today⟩],
        next_trans_id := db.next_trans_id + 1,
        records := db.records.map (fun q =>
          if q.ro_number = ro_number then { q with stage := new_stage } else q) }

/-! ## Definitions used by the verification -/

/-- At most one `credit_audit` row per `(ro_number, employee, note)` key. -/
def atMostOnePerKey (audit : List AuditEntry) : Prop :=
  ∀ ro emp note, (audit.filter (keyMatch ro emp note)).length ≤ 1

/-- A sequence of calls to the idempotent writer `safe_log_credit`. -/
def applyCalls (db : RODb) (calls : List (String × Nat × String × ℚ × String)) : RODb :=
  calls.foldl (fun s c => safe_log_credit s c.1 c.2.1 c.2.2.1 c.2.2.2.1 c.2.2.2.2) db

/-- The audit entry `closeStep` would append for dict entry `p`, if any. -/
def closeEntryFor (db : RODb) (now : String) (ro : Nat) (p : String × ℚ) : Option AuditEntry :=
  let diff := p.2 - creditedFor db.credit_audit ro p.1
  if diff ≠ 0 then some ⟨now, ro, p.1, diff, "Adjustment on close (recalc)"⟩ else none

/-- The entries `apply_uncredited_hours` appends for record `r`: one per
employee in the `expected` dict whose expected−posted difference is non-zero. -/
def closeEntries (db : RODb) (now : String) (r : RepairOrderRow) : List AuditEntry :=
  (expectedMap r).filterMap (closeEntryFor db now r.ro_number)

/-- Modelled from the spec: the claim's case-sensitive stage lookup
("stage identity is a plain string matched case-sensitively against the
caller-supplied stage list"), for comparison with `stage_index`. -/
def stage_index_cs (stages : List String) (name : String) : Int :=
  match stages.indexOf? name with
  | some i => (i : Int)
  | none => -1

/-- Modelled from the spec: the claim's case-sensitive matching rule, for
comparison with `first_transition_matching`. -/
def transMatches_cs (stages : List String) (frm : String)
    (to_at_least to_after : Option String) (t : Transition) : Bool :=
  t.from_stage = frm &&
  (match to_at_least with
   | some x => stage_index_cs stages t.to_stage ≥ stage_index_cs stages x
   | none => true) &&
  (match to_after with
   | some x => stage_index_cs stages t.to_stage > stage_index_cs stages x
   | none => true)

/-- Modelled from the spec: case-sensitive first-transition matching as the
claim states it. -/
def first_transition_matching_cs (stages : List String) (trans_list : List Transition)
    (frm : String) (to_at_least to_after : Option String) : Option Transition :=
  trans_list.find? (transMatches_cs stages frm to_at_least to_after)

/-- The (case-insensitive) matching condition of `first_transition_matching`,
as a proposition. -/
def MatchesSpec (stages : List String) (frm : String)
    (to_at_least to_after : Option String) (t : Transition) : Prop :=
  strLower t.from_stage = strLower frm ∧
  (∀ x, to_at_least = some x → is_at_or_after stages t.to_stage x = true) ∧
  (∀ x, to_after = some x → is_after stages t.to_stage x = true)

/-- Modelled from the spec: the claim's override substitution ("substitutes
the override's non-null date, tech, and hours"), for comparison with
`apply_override_row`. -/
def apply_override_row_spec (db : EffDb) (r : CreditRow) : CreditRow :=
  match overrideFor db r with
  | none => r
  | some o =>
    { r with date := o.date.getD r.date, tech := o.tech.getD r.tech, hours := o.hours.getD r.hours }

/-- The `(ro_number, milestone)` keys of the `credit_baseline` table. -/
def baselineKeys (db : EffDb) : List (String × String) :=
  db.credit_baseline.map (fun b => (b.ro_number, b.milestone))

/-- The guard under which one milestone block of `_calc_credits` runs: the
pattern matches some transition, the responsible tech is assigned, and the
bucket is positive. -/
def Cond (stages : List String) (trans_list : List Transition)
    (bucket : ℚ) (tech : String) (cfg : MilestoneCfg) : Prop :=
  (first_transition_matching stages trans_list cfg.frm cfg.to_at_least cfg.to_after).isSome ∧
  tech ≠ "" ∧ 0 < bucket

/-- A `(ro, milestone)` key is settled for bucket value `bucket`: its baseline
exists and the residual is below the ledger tolerance. -/
def Settled (db : EffDb) (ro milestone : String) (bucket : ℚ) : Prop :=
  baselineExists db ro milestone = true ∧
  |bucket - (get_baseline db ro milestone + sum_adjusted db ro milestone)| < eps

/-- The database component of one milestone block. -/
def pmDb (stages : List String) (trans_list : List Transition) (today : String)
    (ro : String) (bucket : ℚ) (tech : String) (cfg : MilestoneCfg) (db : EffDb) : EffDb :=
  (processMilestone stages trans_list today ro bucket tech cfg (db, [])).1

/-- The residual `bucket − (base_hours + Σ delta_hours)` for a key. -/
@[reducible] def residualOf (db : EffDb) (ro m : String) (bucket : ℚ) : ℚ :=
  bucket - (get_baseline db ro m + sum_adjusted db ro m)

/-- A state reached by recomputing with `body_hours = 40` (baseline frozen at
40) and then editing the bucket to 50, before the next recompute. -/
def dbC1 : EffDb :=
  ⟨DEFAULT_STAGES, [⟨"1", "Paint", 50, 0, "T", "", 0⟩],
   [⟨1, "1", "Body", "Paint", "01-02-2025"⟩], [⟨"1", "body60", 40⟩], [], [], 2, 1⟩

/-- The signed delta the delete handler recovers from a displayed row. -/
def recoveredDelta (r : CreditRow) (share : ℚ) : ℚ :=
  |round2 r.hours| / share * (if strContains (strTrim r.note) "Supplement -" then -1 else 1)

/-- The stored supplement adjustment of the C9 states: delta 0.01 at share 0.6. -/
def adjC9 : AdjRow := ⟨1, "1", "body60", "Body", "Paint", "01-03-2025", "T", 1/100, 6/10⟩

/-- A recompute-stable state holding `adjC9`: baseline 40, bucket 40.01. -/
def dbC9 : EffDb :=
  ⟨DEFAULT_STAGES, [⟨"1", "Paint", 40 + 1/100, 0, "T", "", 0⟩],
   [⟨1, "1", "Body", "Paint", "01-02-2025"⟩], [⟨"1", "body60", 40⟩], [adjC9], [], 2, 2⟩

/-- The credit-table row `_calc_credits` displays for `adjC9`
(hours = delta × share, note = the supplement note). -/
def rowC9 : CreditRow :=
  ⟨"01-03-2025", "1", "Body", "Paint", "T", 1/100 * (6/10), "Supplement +0.01h (Body 60%)"⟩

/-- A stored supplement of +10 hours at share 0.6 (displayed as 6.00h). -/
def adjC9w : AdjRow := ⟨1, "1", "body60", "Body", "Paint", "01-03-2025", "T", 10, 6/10⟩

/-- A recompute-stable state holding `adjC9w`: baseline 40, bucket 50. -/
def dbC9w : EffDb :=
  ⟨DEFAULT_STAGES, [⟨"1", "Paint", 50, 0, "T", "", 0⟩],
   [⟨1, "1", "Body", "Paint", "01-02-2025"⟩], [⟨"1", "body60", 40⟩], [adjC9w], [], 2, 2⟩

/-- The credit-table row displayed for `adjC9w`. -/
def rowC9w : CreditRow :=
  ⟨"01-03-2025", "1", "Body", "Paint", "T", 10 * (6/10), "Supplement +10.00h (Body 60%)"⟩

/-- The database component of the `_calc_credits` loop body for one record. -/
def calcRecordStepDb (stages : List String) (trans_list : List Transition) (today : String)
    (r : RecordRow) (db : EffDb) : EffDb :=
  (recordMilestones r).foldl
    (fun s m => pmDb stages trans_list today r.ro_number m.2.1 m.2.2 m.1 s) db

/-- The database component of the whole `_calc_credits` pass, with the
transition lists and stage configuration baked as the source bakes them. -/
def calcPassDb (stages : List String) (tlOf : String → List Transition) (today : String)
    (rs : List RecordRow) (db : EffDb) : EffDb :=
  rs.foldl (fun s r => calcRecordStepDb stages (tlOf r.ro_number) today r s) db

/-! ## Lemmas on the audit writer -/

theorem safe_log_credit_atMostOne (db : RODb) (now : String) (ro : Nat) (emp : String)
    (h : ℚ) (note : String) (H : atMostOnePerKey db.credit_audit) :
    atMostOnePerKey (safe_log_credit db now ro emp h note).credit_audit := by
  unfold safe_log_credit
  split_ifs with h1 h2
  · exact H
  · exact H
  · intro ro' emp' note'
    simp only [List.filter_append]
    by_cases hk : keyMatch ro' emp' note' ⟨now, ro, emp, h, note⟩ = true
    · have hkey : ro = ro' ∧ emp = emp' ∧ note = note' := by
        simp only [keyMatch, Bool.and_eq_true, decide_eq_true_eq] at hk
        exact ⟨hk.1.1, hk.1.2, hk.2⟩
      obtain ⟨rfl, rfl, rfl⟩ := hkey
      have hemp : db.credit_audit.filter (keyMatch ro emp note) = [] := by
        rw [List.filter_eq_nil_iff]
        intro a ha hpa
        have : auditHas db ro emp note = true := by
          unfold auditHas
          exact List.any_eq_true.mpr ⟨a, ha, hpa⟩
        exact h2 this
      simp [hemp, List.filter_cons, hk]
    · have hle := H ro' emp' note'
      simp only [List.filter_cons, hk]
      simpa using hle

/-- C4's claim holds. -/
theorem applyCalls_atMostOne (db : RODb) (calls : List (String × Nat × String × ℚ × String))
    (H : atMostOnePerKey db.credit_audit) :
    atMostOnePerKey (applyCalls db calls).credit_audit := by
  induction calls generalizing db with
  | nil => exact H
  | cons c cs ih =>
    exact ih _ (safe_log_credit_atMostOne db c.1 c.2.1 c.2.2.1 c.2.2.2.1 c.2.2.2.2 H)

/-! ## Claim C4 -/

/-- C4: after any sequence of calls to the idempotent credit-posting variant
(`safe_log_credit`), for every (ro_number, employee, note) triple at most one
credit-audit entry exists (provided the table satisfied this to begin with,
e.g. starting from empty). -/
theorem c4_no_duplicate_audit (db : RODb) (calls : List (String × Nat × String × ℚ × String))
    (H : atMostOnePerKey db.credit_audit) :
    atMostOnePerKey (applyCalls db calls).credit_audit :=
  applyCalls_atMostOne db calls H

/-- C4 witness: two identical idempotent postings leave a single entry per key. -/
theorem c4_no_duplicate_audit_witness :
    atMostOnePerKey (applyCalls ⟨[⟨1, 1001, "T", "", "", 10, 5, 0, 0, 0, 0⟩], [], []⟩
      [("d", 1001, "A", 2, "n"), ("d", 1001, "A", 2, "n")]).credit_audit :=
  c4_no_duplicate_audit _ _ (by intro ro emp note; simp [atMostOnePerKey])

/-! ## Claim C10 -/

/-- C10 counterexample: the idempotent variant `safe_log_credit` does NOT
verify that the repair order exists — posting against an absent RO inserts an
audit row, contradicting the claim that both variants skip silently. -/
theorem c10_counterexample :
    roExists ⟨[], [], []⟩ 7 = false ∧
    (safe_log_credit ⟨[], [], []⟩ "d" 7 "Alice" 5 "n").credit_audit =
      [⟨"d", 7, "Alice", 5, "n"⟩] := by
  constructor
  · rfl
  · rfl

/-- C10 (amended): both variants are no-ops when the employee is empty or
"Unassigned" or the hours are 0; the NON-idempotent variant `log_credit`
additionally verifies the RO still exists and silently skips when it does not,
while the idempotent variant `safe_log_credit` checks only for an existing
(ro, employee, note) row. -/
theorem c10_guards (db : RODb) (now : String) (ro : Nat) (emp : String)
    (h : ℚ) (note : String) :
    ((emp = "" ∨ emp = "Unassigned" ∨ h = 0) →
      log_credit db now ro emp h note = db ∧ safe_log_credit db now ro emp h note = db) ∧
    (roExists db ro = false → log_credit db now ro emp h note = db) ∧
    (¬(emp = "" ∨ emp = "Unassigned" ∨ h = 0) → roExists db ro = true →
      log_credit db now ro emp h note =
        { db with credit_audit := db.credit_audit ++ [⟨now, ro, emp, h, note⟩] }) ∧
    (auditHas db ro emp note = true → safe_log_credit db now ro emp h note = db) := by
  refine ⟨fun hg => ⟨?_, ?_⟩, fun hne => ?_, fun hg hro => ?_, fun hhas => ?_⟩
  · unfold log_credit; simp [hg]
  · unfold safe_log_credit; simp [hg]
  · unfold log_credit
    split_ifs with h1 h2
    · rfl
    · exact absurd h2 (by simp [roExists] at hne ⊢; simpa using hne)
    · rfl
  · unfold log_credit; simp [hg, hro]
  · unfold safe_log_credit; simp [hhas]

/-- C10 witness: the guard clauses at a concrete input. -/
theorem c10_guards_witness :
    log_credit ⟨[], [], []⟩ "d" 7 "" 5 "n" = ⟨[], [], []⟩ ∧
    safe_log_credit ⟨[], [], []⟩ "d" 7 "" 5 "n" = ⟨[], [], []⟩ :=
  (c10_guards ⟨[], [], []⟩ "d" 7 "" 5 "n").1 (Or.inl rfl)

/-! ## Lemmas on list search -/

theorem find?_eq_some_first {α : Type} {p : α → Bool} {l : List α} {a : α}
    (h : l.find? p = some a) :
    ∃ l1 l2, l = l1 ++ a :: l2 ∧ p a = true ∧ ∀ b ∈ l1, p b = false := by
  induction l with
  | nil => simp at h
  | cons x xs ih =>
    by_cases hx : p x = true
    · rw [List.find?_cons_of_pos _ hx] at h
      cases h
      exact ⟨[], xs, rfl, hx, by simp⟩
    · rw [List.find?_cons_of_neg _ (by simpa using hx)] at h
      obtain ⟨l1, l2, rfl, hpa, hall⟩ := ih h
      refine ⟨x :: l1, l2, rfl, hpa, ?_⟩
      intro b hb
      rcases List.mem_cons.mp hb with rfl | hb
      · simpa using hx
      · exact hall b hb

theorem transMatches_iff (stages : List String) (frm : String)
    (tal taf : Option String) (t : Transition) :
    transMatches stages frm tal taf t = true ↔ MatchesSpec stages frm tal taf t := by
  unfold transMatches MatchesSpec
  cases tal <;> cases taf <;>
    simp [Bool.and_eq_true, decide_eq_true_eq] <;> tauto

/-! ## Claim C6 -/

/-- C6 counterexample: stage matching is case-INsensitive.  A transition whose
`from_stage` is "BODY" matches the milestone origin "Body" in the
implementation, while the claim's case-sensitive rule rejects it. -/
theorem c6_counterexample :
    first_transition_matching DEFAULT_STAGES [⟨1, "1", "BODY", "Paint", "01-02-2025"⟩]
      "Body" (some "Paint") none = some ⟨1, "1", "BODY", "Paint", "01-02-2025"⟩ ∧
    first_transition_matching_cs DEFAULT_STAGES [⟨1, "1", "BODY", "Paint", "01-02-2025"⟩]
      "Body" (some "Paint") none = none := by
  constructor
  · rfl
  · rfl

/-- C6 (amended): matching scans the transition list in order and selects the
first transition whose `from_stage` equals the pattern's origin stage under
CASE-INSENSITIVE comparison and whose `to_stage` is at-or-after (resp. strictly
after) the target stage, with stage positions resolved case-insensitively in
the configured ordered stage list; if no transition matches, the milestone
block changes nothing (no baseline, no adjustment, no credit row). -/
theorem c6_first_transition_matching (stages : List String) (ts : List Transition)
    (frm : String) (tal taf : Option String) :
    (∀ t, first_transition_matching stages ts frm tal taf = some t →
      MatchesSpec stages frm tal taf t ∧
      ∃ l1 l2, ts = l1 ++ t :: l2 ∧ ∀ u ∈ l1, ¬ MatchesSpec stages frm tal taf u) ∧
    (first_transition_matching stages ts frm tal taf = none →
      ∀ t ∈ ts, ¬ MatchesSpec stages frm tal taf t) ∧
    (∀ today ro bucket tech cfg acc, cfg.frm = frm → cfg.to_at_least = tal → cfg.to_after = taf →
      first_transition_matching stages ts frm tal taf = none →
      processMilestone stages ts today ro bucket tech cfg acc = acc) := by
  refine ⟨fun t ht => ?_, fun hn t htm hm => ?_, fun today ro bucket tech cfg acc h1 h2 h3 hn => ?_⟩
  · obtain ⟨l1, l2, rfl, hpa, hall⟩ := find?_eq_some_first ht
    refine ⟨(transMatches_iff stages frm tal taf t).mp hpa, l1, l2, rfl, ?_⟩
    intro u hu hmu
    have := (transMatches_iff stages frm tal taf u).mpr hmu
    rw [hall u hu] at this
    exact Bool.false_ne_true this
  · have := List.find?_eq_none.mp hn t htm
    exact this ((transMatches_iff stages frm tal taf t).mpr hm)
  · unfold processMilestone
    rw [h1, h2, h3, hn]

/-- C6 witness: the amended matching rule at a concrete input. -/
theorem c6_first_transition_matching_witness :
    MatchesSpec DEFAULT_STAGES "Body" (some "Paint") none ⟨1, "1", "Body", "Paint", "01-02-2025"⟩ ∧
    ∃ l1 l2, [⟨2, "1", "Intake", "Disassembly", "01-01-2025"⟩,
        ⟨1, "1", "Body", "Paint", "01-02-2025"⟩] =
      l1 ++ (⟨1, "1", "Body", "Paint", "01-02-2025"⟩ : Transition) :: l2 ∧
      ∀ u ∈ l1, ¬ MatchesSpec DEFAULT_STAGES "Body" (some "Paint") none u :=
  (c6_first_transition_matching DEFAULT_STAGES
    [⟨2, "1", "Intake", "Disassembly", "01-01-2025"⟩, ⟨1, "1", "Body", "Paint", "01-02-2025"⟩]
    "Body" (some "Paint") none).1 ⟨1, "1", "Body", "Paint", "01-02-2025"⟩ (by rfl)

/-! ## Claim C7 -/

/-- C7: the transition sequence `_calc_credits` matches against is produced by
`ORDER BY date ASC, id ASC` on a TEXT column holding `MM-dd-yyyy` strings, i.e.
lexicographic string order.  Across a year boundary this is NOT chronological:
a transition dated 12-31-2024 sorts AFTER one dated 01-01-2025, so "first
matching transition" is not first with respect to the transition timestamps,
contradicting the spec's load-bearing ordering guarantee.  Evaluated here at
the failing input. -/
theorem c7_ordering_bug :
    (orderByDateId [⟨1, "RO1", "Body", "Paint", "12-31-2024"⟩,
        ⟨2, "RO1", "Paint", "Reassembly", "01-01-2025"⟩] =
      [⟨2, "RO1", "Paint", "Reassembly", "01-01-2025"⟩,
       ⟨1, "RO1", "Body", "Paint", "12-31-2024"⟩]) ∧
    parse_date_str "12-31-2024" = some (2024, 12, 31) ∧
    parse_date_str "01-01-2025" = some (2025, 1, 1) ∧
    dateLT (2024, 12, 31) (2025, 1, 1) = true ∧
    transitionsFor
      { stages := DEFAULT_STAGES, records := [],
        stage_transitions := [⟨1, "RO1", "Body", "Paint", "12-31-2024"⟩,
          ⟨2, "RO1", "Paint", "Reassembly", "01-01-2025"⟩],
        credit_baseline := [], credit_adjustments := [], credit_overrides := [],
        next_trans_id := 3, next_adj_id := 1 } "RO1" =
      [⟨2, "RO1", "Paint", "Reassembly", "01-01-2025"⟩,
       ⟨1, "RO1", "Body", "Paint", "12-31-2024"⟩] := by
  refine ⟨by decide, by rfl, by rfl, by rfl, by decide⟩

/-! ## Claim C8 -/

/-- C8 counterexample: an override whose `tech` is non-null but blank is NOT
substituted by the implementation (it keeps the generated tech), while the
claim's rule ("substitutes the override's non-null date, tech, and hours")
replaces it. -/
theorem c8_counterexample :
    (overrideFor
        { stages := DEFAULT_STAGES, records := [], stage_transitions := [],
          credit_baseline := [], credit_adjustments := [],
          credit_overrides := [⟨"1", "Body", "Paint", "n", some "01-02-2025", some "", some 5⟩],
          next_trans_id := 1, next_adj_id := 1 }
        ⟨"01-01-2025", "1", "Body", "Paint", "T", 24, "n"⟩ =
      some ⟨"1", "Body", "Paint", "n", some "01-02-2025", some "", some 5⟩) ∧
    (apply_override_row
        { stages := DEFAULT_STAGES, records := [], stage_transitions := [],
          credit_baseline := [], credit_adjustments := [],
          credit_overrides := [⟨"1", "Body", "Paint", "n", some "01-02-2025", some "", some 5⟩],
          next_trans_id := 1, next_adj_id := 1 }
        ⟨"01-01-2025", "1", "Body", "Paint", "T", 24, "n"⟩).tech = "T" ∧
    (apply_override_row_spec
        { stages := DEFAULT_STAGES, records := [], stage_transitions := [],
          credit_baseline := [], credit_adjustments := [],
          credit_overrides := [⟨"1", "Body", "Paint", "n", some "01-02-2025", some "", some 5⟩],
          next_trans_id := 1, next_adj_id := 1 }
        ⟨"01-01-2025", "1", "Body", "Paint", "T", 24, "n"⟩).tech = "" := by
  refine ⟨by rfl, by rfl, by rfl⟩

/-- C8 (amended): when an override exists for a generated row's
(ro, from, to, note) key, rendering substitutes the override's date and tech
when they are non-null AND non-blank, and its hours when non-null; the
identity fields ro/from/to/note are never replaced; with no override (in
particular after the override is deleted) the row renders with its originally
generated values. -/
theorem c8_override_transparency (db : EffDb) (r : CreditRow) :
    ((apply_override_row db r).ro = r.ro ∧
     (apply_override_row db r).from_stage = r.from_stage ∧
     (apply_override_row db r).to_stage = r.to_stage ∧
     (apply_override_row db r).note = r.note) ∧
    (∀ o, overrideFor db r = some o →
      (apply_override_row db r).date =
        (match o.date with
         | some d => if strTrim d ≠ "" then d else r.date
         | none => r.date) ∧
      (apply_override_row db r).tech =
        (match o.tech with
         | some tc => if strTrim tc ≠ "" then tc else r.tech
         | none => r.tech) ∧
      (apply_override_row db r).hours =
        (match o.hours with
         | some h => h
         | none => r.hours)) ∧
    (overrideFor db r = none → apply_override_row db r = r) ∧
    apply_override_row (delete_override db r.ro r.from_stage r.to_stage r.note) r = r := by
  have hdel : overrideFor (delete_override db r.ro r.from_stage r.to_stage r.note) r = none := by
    apply List.find?_eq_none.mpr
    intro o ho
    have hkeep := (List.mem_filter.mp ho).2
    simp only [decide_eq_true_eq] at hkeep
    intro hmatch
    simp only [Bool.and_eq_true, decide_eq_true_eq] at hmatch
    exact hkeep ⟨hmatch.1.1.1, hmatch.1.1.2, hmatch.1.2, hmatch.2⟩
  refine ⟨?_, fun o ho => ?_, fun hn => ?_, ?_⟩
  · unfold apply_override_row
    cases hov : overrideFor db r with
    | none => exact ⟨rfl, rfl, rfl, rfl⟩
    | some o =>
      obtain ⟨oro, ofrm, oto, onote, od, ot, oh⟩ := o
      cases od <;> cases ot <;> cases oh <;> simp <;> split_ifs <;> simp
  · unfold apply_override_row
    rw [ho]
    obtain ⟨oro, ofrm, oto, onote, od, ot, oh⟩ := o
    cases od <;> cases ot <;> cases oh <;> simp <;> split_ifs <;> simp
  · unfold apply_override_row
    rw [hn]
  · unfold apply_override_row
    rw [hdel]

/-- C8 witness: a set override substitutes date/tech/hours, and deleting it
reverts the rendered row, at a concrete input. -/
theorem c8_override_transparency_witness :
    (apply_override_row
        { stages := DEFAULT_STAGES, records := [], stage_transitions := [],
          credit_baseline := [], credit_adjustments := [],
          credit_overrides := [⟨"1", "Body", "Paint", "n", some "02-02-2025", some "U", some 20⟩],
          next_trans_id := 1, next_adj_id := 1 }
        ⟨"01-01-2025", "1", "Body", "Paint", "T", 24, "n"⟩).date = "02-02-2025" ∧
    (apply_override_row
        { stages := DEFAULT_STAGES, records := [], stage_transitions := [],
          credit_baseline := [], credit_adjustments := [],
          credit_overrides := [⟨"1", "Body", "Paint", "n", some "02-02-2025", some "U", some 20⟩],
          next_trans_id := 1, next_adj_id := 1 }
        ⟨"01-01-2025", "1", "Body", "Paint", "T", 24, "n"⟩).tech = "U" ∧
    (apply_override_row
        { stages := DEFAULT_STAGES, records := [], stage_transitions := [],
          credit_baseline := [], credit_adjustments := [],
          credit_overrides := [⟨"1", "Body", "Paint", "n", some "02-02-2025", some "U", some 20⟩],
          next_trans_id := 1, next_adj_id := 1 }
        ⟨"01-01-2025", "1", "Body", "Paint", "T", 24, "n"⟩).hours = 20 := by
  have h := (c8_override_transparency
    { stages := DEFAULT_STAGES, records := [], stage_transitions := [],
      credit_baseline := [], credit_adjustments := [],
      credit_overrides := [⟨"1", "Body", "Paint", "n", some "02-02-2025", some "U", some 20⟩],
      next_trans_id := 1, next_adj_id := 1 }
    ⟨"01-01-2025", "1", "Body", "Paint", "T", 24, "n"⟩).2.1
    ⟨"1", "Body", "Paint", "n", some "02-02-2025", some "U", some 20⟩ (by rfl)
  refine ⟨?_, ?_, ?_⟩
  · rw [h.1]; rfl
  · rw [h.2.1]; rfl
  · rw [h.2.2]

/-! ## Lemmas on the close-time reconciliation -/

theorem dictAdd_keys (m : List (String × ℚ)) (k : String) (v : ℚ) :
    (dictAdd m k v).map Prod.fst =
      if m.any (fun p => p.1 = k) then m.map Prod.fst else m.map Prod.fst ++ [k] := by
  unfold dictAdd
  split_ifs with h
  · rw [List.map_map]
    apply List.map_congr_left
    intro p _
    by_cases hp : p.1 = k <;> simp [hp]
  · simp

theorem keys_dictAdd (m : List (String × ℚ)) (k : String) (v : ℚ) (a : String)
    (h : a ∈ (dictAdd m k v).map Prod.fst) : a ∈ m.map Prod.fst ∨ a = k := by
  rw [dictAdd_keys] at h
  split_ifs at h with hk
  · exact Or.inl h
  · rcases List.mem_append.mp h with h1 | h1
    · exact Or.inl h1
    · exact Or.inr (by simpa using h1)

theorem dictAdd_forall (P : String → Prop) (m : List (String × ℚ)) (k : String) (v : ℚ)
    (hm : ∀ p ∈ m, P p.1) (hk : P k) : ∀ p ∈ dictAdd m k v, P p.1 := by
  intro p hp
  have := List.mem_map_of_mem Prod.fst hp
  rcases keys_dictAdd m k v p.1 this with h | h
  · obtain ⟨q, hq, hqe⟩ := List.mem_map.mp h
    exact hqe ▸ hm q hq
  · exact h ▸ hk

theorem dictAdd_keys_nodup (m : List (String × ℚ)) (k : String) (v : ℚ)
    (h : (m.map Prod.fst).Nodup) : ((dictAdd m k v).map Prod.fst).Nodup := by
  rw [dictAdd_keys]
  split_ifs with hk
  · exact h
  · refine List.Nodup.append h (List.nodup_singleton k) ?_
    intro a ha hb
    rw [List.mem_singleton] at hb
    subst hb
    obtain ⟨p, hp, hpe⟩ := List.mem_map.mp ha
    have : m.any (fun p => p.1 = a) = true := List.any_eq_true.mpr ⟨p, hp, by simp [hpe]⟩
    simp [this] at hk

theorem expectedMap_valid (r : RepairOrderRow) :
    ∀ p ∈ expectedMap r, p.1 ≠ "" ∧ p.1 ≠ "Unassigned" := by
  have hnil : ∀ p ∈ ([] : List (String × ℚ)), p.1 ≠ "" ∧ p.1 ≠ "Unassigned" := by
    intro p hp
    exact absurd hp (List.not_mem_nil p)
  unfold expectedMap
  split_ifs with h1 h2 h3 h3 h2 h3 h3 <;>
    first
    | exact hnil
    | exact dictAdd_forall (fun a => a ≠ "" ∧ a ≠ "Unassigned") _ _ _ hnil h1
    | exact dictAdd_forall (fun a => a ≠ "" ∧ a ≠ "Unassigned") _ _ _ hnil h2
    | exact dictAdd_forall (fun a => a ≠ "" ∧ a ≠ "Unassigned") _ _ _ hnil h3
    | exact dictAdd_forall (fun a => a ≠ "" ∧ a ≠ "Unassigned") _ _ _
        (dictAdd_forall (fun a => a ≠ "" ∧ a ≠ "Unassigned") _ _ _ hnil h1) h2
    | exact dictAdd_forall (fun a => a ≠ "" ∧ a ≠ "Unassigned") _ _ _
        (dictAdd_forall (fun a => a ≠ "" ∧ a ≠ "Unassigned") _ _ _ hnil h1) h3
    | exact dictAdd_forall (fun a => a ≠ "" ∧ a ≠ "Unassigned") _ _ _
        (dictAdd_forall (fun a => a ≠ "" ∧ a ≠ "Unassigned") _ _ _ hnil h2) h3
    | exact dictAdd_forall (fun a => a ≠ "" ∧ a ≠ "Unassigned") _ _ _
        (dictAdd_forall (fun a => a ≠ "" ∧ a ≠ "Unassigned") _ _ _
          (dictAdd_forall (fun a => a ≠ "" ∧ a ≠ "Unassigned") _ _ _ hnil h1) h2) h3

theorem expectedMap_keys_nodup (r : RepairOrderRow) :
    ((expectedMap r).map Prod.fst).Nodup := by
  have hnil : (([] : List (String × ℚ)).map Prod.fst).Nodup := by simp
  unfold expectedMap
  split_ifs <;>
    first
    | exact hnil
    | exact dictAdd_keys_nodup _ _ _ hnil
    | exact dictAdd_keys_nodup _ _ _ (dictAdd_keys_nodup _ _ _ hnil)
    | exact dictAdd_keys_nodup _ _ _ (dictAdd_keys_nodup _ _ _ (dictAdd_keys_nodup _ _ _ hnil))

theorem closeEntryFor_some (db : RODb) (now : String) (ro : Nat) (p : String × ℚ)
    (e : AuditEntry) (h : closeEntryFor db now ro p = some e) :
    e = ⟨now, ro, p.1, p.2 - creditedFor db.credit_audit ro p.1, "Adjustment on close (recalc)"⟩ ∧
    p.2 - creditedFor db.credit_audit ro p.1 ≠ 0 := by
  simp only [closeEntryFor] at h
  by_cases hd : p.2 - creditedFor db.credit_audit ro p.1 ≠ 0
  · rw [if_pos hd] at h
    exact ⟨(Option.some.inj h).symm, hd⟩
  · rw [if_neg hd] at h
    cases h

theorem closeList_emp_mem (db : RODb) (now : String) (ro : Nat) (m : List (String × ℚ)) :
    ∀ e ∈ m.filterMap (closeEntryFor db now ro), e.employee ∈ m.map Prod.fst := by
  intro e he
  obtain ⟨p, hp, hpe⟩ := List.mem_filterMap.mp he
  obtain ⟨rfl, -⟩ := closeEntryFor_some db now ro p e hpe
  exact List.mem_map_of_mem Prod.fst hp

theorem closeList_nodup (db : RODb) (now : String) (ro : Nat) (m : List (String × ℚ))
    (h : (m.map Prod.fst).Nodup) :
    ((m.filterMap (closeEntryFor db now ro)).map AuditEntry.employee).Nodup := by
  induction m with
  | nil => simp
  | cons q m ih =>
    rw [List.map_cons, List.nodup_cons] at h
    rw [List.filterMap_cons]
    cases hq : closeEntryFor db now ro q with
    | none => exact ih h.2
    | some e =>
      rw [List.map_cons, List.nodup_cons]
      refine ⟨?_, ih h.2⟩
      intro hmem
      obtain ⟨e', he', heq⟩ := List.mem_map.mp hmem
      obtain ⟨rfl, -⟩ := closeEntryFor_some db now ro q e hq
      have he2 : e'.employee = q.1 := heq
      exact h.1 (he2 ▸ closeList_emp_mem db now ro m e' he')

theorem creditedFor_append (a b : List AuditEntry) (ro : Nat) (emp : String) :
    creditedFor (a ++ b) ro emp = creditedFor a ro emp + creditedFor b ro emp := by
  unfold creditedFor
  rw [List.filter_append, List.map_append, List.sum_append]

theorem creditedFor_cons (e : AuditEntry) (l : List AuditEntry) (ro : Nat) (emp : String) :
    creditedFor (e :: l) ro emp =
      (if e.ro_number = ro ∧ e.employee = emp then e.hours else 0) + creditedFor l ro emp := by
  by_cases h : e.ro_number = ro ∧ e.employee = emp
  · rw [if_pos h]
    unfold creditedFor
    rw [List.filter_cons, if_pos (by simpa using h), List.map_cons, List.sum_cons]
  · rw [if_neg h]
    unfold creditedFor
    rw [List.filter_cons, if_neg (by simpa using h), zero_add]

theorem creditedFor_closeList_zero (db : RODb) (now : String) (ro : Nat)
    (m : List (String × ℚ)) (emp : String) (h : emp ∉ m.map Prod.fst) :
    creditedFor (m.filterMap (closeEntryFor db now ro)) ro emp = 0 := by
  unfold creditedFor
  have : (m.filterMap (closeEntryFor db now ro)).filter
      (fun e => e.ro_number = ro ∧ e.employee = emp) = [] := by
    rw [List.filter_eq_nil_iff]
    intro e he hpe
    simp only [decide_eq_true_eq] at hpe
    exact h (hpe.2 ▸ closeList_emp_mem db now ro m e he)
  rw [this]
  rfl

theorem creditedFor_closeList (db : RODb) (now : String) (ro : Nat)
    (m : List (String × ℚ)) (hnd : (m.map Prod.fst).Nodup) (p : String × ℚ) (hp : p ∈ m) :
    creditedFor (m.filterMap (closeEntryFor db now ro)) ro p.1 =
      (if p.2 - creditedFor db.credit_audit ro p.1 ≠ 0
       then p.2 - creditedFor db.credit_audit ro p.1 else 0) := by
  induction m with
  | nil => cases hp
  | cons q m ih =>
    rw [List.map_cons, List.nodup_cons] at hnd
    rw [List.filterMap_cons]
    rcases List.mem_cons.mp hp with rfl | hp'
    · cases hq : closeEntryFor db now ro p with
      | none =>
        have hz : ¬ (p.2 - creditedFor db.credit_audit ro p.1 ≠ 0) := by
          intro hd
          simp only [closeEntryFor] at hq
          rw [if_pos hd] at hq
          cases hq
        rw [if_neg hz]
        exact creditedFor_closeList_zero db now ro m p.1 hnd.1
      | some e =>
        obtain ⟨rfl, hd⟩ := closeEntryFor_some db now ro p e hq
        rw [if_pos hd, creditedFor_cons]
        rw [if_pos (by exact ⟨rfl, rfl⟩)]
        rw [creditedFor_closeList_zero db now ro m p.1 hnd.1, add_zero]
    · have hne : p.1 ≠ q.1 := by
        intro hcontra
        exact hnd.1 (hcontra ▸ List.mem_map_of_mem Prod.fst hp')
      cases hq : closeEntryFor db now ro q with
      | none => exact ih hnd.2 hp'
      | some e =>
        obtain ⟨rfl, -⟩ := closeEntryFor_some db now ro q e hq
        rw [creditedFor_cons]
        rw [if_neg (by intro hc; exact hne hc.2.symm), zero_add]
        exact ih hnd.2 hp'

theorem closeFold (db : RODb) (now : String) (ro : Nat)
    (hro : roExists db ro = true) (m : List (String × ℚ))
    (hv : ∀ p ∈ m, p.1 ≠ "" ∧ p.1 ≠ "Unassigned") (acc : List AuditEntry) :
    m.foldl (closeStep db now ro) { db with credit_audit := db.credit_audit ++ acc } =
      { db with credit_audit :=
          db.credit_audit ++ acc ++ m.filterMap (closeEntryFor db now ro) } := by
  induction m generalizing acc with
  | nil => simp
  | cons q m ih =>
    rw [List.foldl_cons, List.filterMap_cons]
    have hq := hv q (List.mem_cons_self q m)
    by_cases hd : q.2 - creditedFor db.credit_audit ro q.1 ≠ 0
    · have hstep : closeStep db now ro { db with credit_audit := db.credit_audit ++ acc } q =
          { db with credit_audit := db.credit_audit ++
            (acc ++ [⟨now, ro, q.1, q.2 - creditedFor db.credit_audit ro q.1,
              "Adjustment on close (recalc)"⟩]) } := by
        simp only [closeStep, log_credit]
        rw [if_pos hd]
        rw [if_neg (by simp [hq.1, hq.2, hd])]
        rw [if_pos (by simpa [roExists] using hro)]
        simp [List.append_assoc]
      rw [hstep, ih (fun p hp => hv p (List.mem_cons_of_mem q hp))]
      have he : closeEntryFor db now ro q =
          some ⟨now, ro, q.1, q.2 - creditedFor db.credit_audit ro q.1,
            "Adjustment on close (recalc)"⟩ := by
        simp only [closeEntryFor]
        rw [if_pos hd]
      rw [he]
      simp [List.append_assoc]
    · have hstep : closeStep db now ro { db with credit_audit := db.credit_audit ++ acc } q =
          { db with credit_audit := db.credit_audit ++ acc } := by
        unfold closeStep
        rw [if_neg hd]
      have he : closeEntryFor db now ro q = none := by
        simp only [closeEntryFor]
        rw [if_neg hd]
      rw [hstep, he, ih (fun p hp => hv p (List.mem_cons_of_mem q hp))]

/-- `apply_uncredited_hours` appends exactly `closeEntries`. -/
theorem apply_uncredited_eq (db : RODb) (now : String) (ro_id : Nat)
    (r : RepairOrderRow) (hr : findRO db ro_id = some r) :
    apply_uncredited_hours db now ro_id =
      { db with credit_audit := db.credit_audit ++ closeEntries db now r } := by
  unfold apply_uncredited_hours
  rw [hr]
  have hro : roExists db r.ro_number = true := by
    unfold roExists
    refine List.any_eq_true.mpr ⟨r, List.mem_of_find?_eq_some hr, by simp⟩
  have h2 := closeFold db now r.ro_number hro (expectedMap r) (expectedMap_valid r) []
  rw [List.append_nil] at h2
  exact h2

theorem close_idempotent (db : RODb) (now now' : String) (ro_id : Nat) :
    apply_uncredited_hours (apply_uncredited_hours db now ro_id) now' ro_id =
      apply_uncredited_hours db now ro_id := by
  cases hr : findRO db ro_id with
  | none =>
    have h1 : apply_uncredited_hours db now ro_id = db := by
      unfold apply_uncredited_hours
      rw [hr]
    rw [h1]
    unfold apply_uncredited_hours
    rw [hr]
  | some r =>
    have h1 := apply_uncredited_eq db now ro_id r hr
    have haudit : (apply_uncredited_hours db now ro_id).credit_audit =
        db.credit_audit ++ closeEntries db now r := by rw [h1]
    have hr2 : findRO (apply_uncredited_hours db now ro_id) ro_id = some r := by
      rw [h1]; exact hr
    have h2 := apply_uncredited_eq (apply_uncredited_hours db now ro_id) now' ro_id r hr2
    rw [h2]
    have hz : closeEntries (apply_uncredited_hours db now ro_id) now' r = [] := by
      unfold closeEntries
      rw [List.filterMap_eq_nil_iff]
      intro p hp
      have hc : creditedFor (apply_uncredited_hours db now ro_id).credit_audit
          r.ro_number p.1 = p.2 := by
        rw [haudit, creditedFor_append]
        unfold closeEntries
        rw [creditedFor_closeList db now r.ro_number (expectedMap r)
          (expectedMap_keys_nodup r) p hp]
        by_cases hd : p.2 - creditedFor db.credit_audit r.ro_number p.1 ≠ 0
        · rw [if_pos hd]; ring
        · rw [if_neg hd]
          rw [not_ne_iff] at hd
          linarith
      simp only [closeEntryFor]
      rw [hc]
      simp
    rw [hz, List.append_nil]

/-! ## Claim C5 -/

/-- C5 counterexample: close reconciliation has NO 0.01-hour tolerance.  With
an expected−posted difference of 0.005 hours (within the claimed tolerance)
the implementation still posts an audit entry. -/
theorem c5_counterexample :
    |(1 / 200 : ℚ) -
        creditedFor (⟨[⟨1, 1001, "T", "", "", 10, 1/200, 0, 0, 0, 0⟩], [], []⟩ : RODb).credit_audit
          1001 "T"| ≤ 1 / 100 ∧
    (apply_uncredited_hours ⟨[⟨1, 1001, "T", "", "", 10, 1/200, 0, 0, 0, 0⟩], [], []⟩
        "d" 1).credit_audit =
      [⟨"d", 1001, "T", 1/200, "Adjustment on close (recalc)"⟩] := by
  constructor
  · rw [show creditedFor (⟨[⟨1, 1001, "T", "", "", 10, 1/200, 0, 0, 0, 0⟩], [], []⟩ : RODb).credit_audit
        1001 "T" = 0 from rfl, sub_zero, abs_of_pos (by norm_num)]
    norm_num
  · rw [apply_uncredited_eq ⟨[⟨1, 1001, "T", "", "", 10, 1/200, 0, 0, 0, 0⟩], [], []⟩
      "d" 1 ⟨1, 1001, "T", "", "", 10, 1/200, 0, 0, 0, 0⟩ (by rfl)]
    simp [closeEntries, expectedMap, dictAdd, closeEntryFor, creditedFor]

/-- C5 (amended): when an RO is closed, reconciliation posts per employee at
most one additional audit entry, equal to the signed difference
expected − posted, with note "Adjustment on close (recalc)" — but it does so
whenever the difference is non-zero EXACTLY (the implementation has no
0.01-hour tolerance); closing the same RO again immediately afterwards posts
nothing further. -/
theorem c5_close_reconciliation (db : RODb) (now now' : String) (ro_id : Nat) :
    (apply_uncredited_hours (apply_uncredited_hours db now ro_id) now' ro_id =
      apply_uncredited_hours db now ro_id) ∧
    (∀ r, findRO db ro_id = some r →
      (apply_uncredited_hours db now ro_id).credit_audit =
        db.credit_audit ++ closeEntries db now r ∧
      ((closeEntries db now r).map AuditEntry.employee).Nodup ∧
      (∀ e ∈ closeEntries db now r,
        e.note = "Adjustment on close (recalc)" ∧ e.ro_number = r.ro_number ∧
        ∃ p ∈ expectedMap r, e.employee = p.1 ∧
          e.hours = p.2 - creditedFor db.credit_audit r.ro_number p.1 ∧ e.hours ≠ 0)) := by
  refine ⟨close_idempotent db now now' ro_id, fun r hr => ⟨?_, ?_, ?_⟩⟩
  · rw [apply_uncredited_eq db now ro_id r hr]
  · exact closeList_nodup db now r.ro_number (expectedMap r) (expectedMap_keys_nodup r)
  · intro e he
    obtain ⟨p, hp, hpe⟩ := List.mem_filterMap.mp he
    obtain ⟨rfl, hd⟩ := closeEntryFor_some db now r.ro_number p e hpe
    exact ⟨rfl, rfl, p, hp, rfl, rfl, hd⟩

/-- C5 witness: the spec scenario — 45.0h expected, 40.0h posted — yields one
+5.0h entry noted "Adjustment on close (recalc)". -/
theorem c5_close_reconciliation_witness :
    (apply_uncredited_hours
        ⟨[⟨1, 1001, "T", "", "", 45, 45, 0, 0, 0, 0⟩], [],
         [⟨"x", 1001, "T", 40, "Body phase completed (60%)"⟩]⟩ "d" 1).credit_audit =
      [⟨"x", 1001, "T", 40, "Body phase completed (60%)"⟩,
       ⟨"d", 1001, "T", 5, "Adjustment on close (recalc)"⟩] := by
  have h := ((c5_close_reconciliation
      ⟨[⟨1, 1001, "T", "", "", 45, 45, 0, 0, 0, 0⟩], [],
       [⟨"x", 1001, "T", 40, "Body phase completed (60%)"⟩]⟩ "d" "e" 1).2
    ⟨1, 1001, "T", "", "", 45, 45, 0, 0, 0, 0⟩ (by rfl)).1
  rw [h]
  simp [closeEntries, expectedMap, dictAdd, closeEntryFor, creditedFor, List.filterMap_cons]
  norm_num

/-! ## Lemmas on the baseline/adjustment ledger -/

theorem get_baseline_ext (db1 db2 : EffDb) (h : db1.credit_baseline = db2.credit_baseline)
    (ro m : String) : get_baseline db1 ro m = get_baseline db2 ro m := by
  unfold get_baseline
  rw [h]

theorem baselineExists_ext (db1 db2 : EffDb) (h : db1.credit_baseline = db2.credit_baseline)
    (ro m : String) : baselineExists db1 ro m = baselineExists db2 ro m := by
  unfold baselineExists
  rw [h]

theorem sum_adjusted_ext (db1 db2 : EffDb) (h : db1.credit_adjustments = db2.credit_adjustments)
    (ro m : String) : sum_adjusted db1 ro m = sum_adjusted db2 ro m := by
  unfold sum_adjusted
  rw [h]

theorem add_adjustment_frame (db : EffDb) (ro m f t tech : String) (d s : ℚ) (w : String) :
    (add_adjustment db ro m f t tech d s w).credit_baseline = db.credit_baseline ∧
    (add_adjustment db ro m f t tech d s w).records = db.records ∧
    (add_adjustment db ro m f t tech d s w).stage_transitions = db.stage_transitions ∧
    (add_adjustment db ro m f t tech d s w).credit_overrides = db.credit_overrides ∧
    (add_adjustment db ro m f t tech d s w).stages = db.stages := by
  unfold add_adjustment
  split_ifs <;> exact ⟨rfl, rfl, rfl, rfl, rfl⟩

theorem ensure_baseline_frame (db : EffDb) (ro m : String) (b : ℚ) :
    (ensure_baseline db ro m b).credit_adjustments = db.credit_adjustments ∧
    (ensure_baseline db ro m b).records = db.records ∧
    (ensure_baseline db ro m b).stage_transitions = db.stage_transitions ∧
    (ensure_baseline db ro m b).credit_overrides = db.credit_overrides ∧
    (ensure_baseline db ro m b).stages = db.stages ∧
    (ensure_baseline db ro m b).next_adj_id = db.next_adj_id := by
  unfold ensure_baseline
  split_ifs <;> exact ⟨rfl, rfl, rfl, rfl, rfl, rfl⟩

theorem ensure_baseline_pres (db : EffDb) (ro m : String) (b : ℚ) (ro2 m2 : String)
    (h : baselineExists db ro2 m2 = true) :
    get_baseline (ensure_baseline db ro m b) ro2 m2 = get_baseline db ro2 m2 ∧
    baselineExists (ensure_baseline db ro m b) ro2 m2 = true := by
  unfold ensure_baseline
  split_ifs with hex
  · exact ⟨rfl, h⟩
  · have h' : db.credit_baseline.any (fun bb => bb.ro_number = ro2 && bb.milestone = m2) = true := h
    have hsome : (db.credit_baseline.find?
        (fun bb => bb.ro_number = ro2 && bb.milestone = m2)).isSome := by
      rw [List.find?_isSome]
      obtain ⟨row, hrow, hp⟩ := List.any_eq_true.mp h'
      exact ⟨row, hrow, hp⟩
    obtain ⟨y, hy⟩ := Option.isSome_iff_exists.mp hsome
    constructor
    · unfold get_baseline
      rw [List.find?_append, hy]
      rfl
    · unfold baselineExists
      rw [List.any_append, h']
      rfl

theorem processMilestone_fst (stages : List String) (tl : List Transition) (today ro : String)
    (bucket : ℚ) (tech : String) (cfg : MilestoneCfg) (acc : EffDb × List CreditRow) :
    (processMilestone stages tl today ro bucket tech cfg acc).1 =
      pmDb stages tl today ro bucket tech cfg acc.1 := by
  unfold pmDb processMilestone
  cases first_transition_matching stages tl cfg.frm cfg.to_at_least cfg.to_after with
  | none => rfl
  | some t => split_ifs <;> rfl

theorem calcRecordStep_fst (stages : List String) (tl : List Transition) (today : String)
    (r : RecordRow) (acc : EffDb × List CreditRow) :
    (calcRecordStep stages tl today r acc).1 = calcRecordStepDb stages tl today r acc.1 := by
  unfold calcRecordStep calcRecordStepDb
  generalize recordMilestones r = ms
  induction ms generalizing acc with
  | nil => rfl
  | cons m ms ih =>
    rw [List.foldl_cons, List.foldl_cons, ih, processMilestone_fst]

theorem calc_credits_fst (db : EffDb) (today : String) :
    (calc_credits db today).1 =
      calcPassDb db.stages (fun ro => transitionsFor db ro) today db.records db := by
  unfold calc_credits calcPassDb
  suffices h : ∀ (rs : List RecordRow) (acc : EffDb × List CreditRow),
      (rs.foldl (fun acc r =>
        calcRecordStep db.stages (transitionsFor db r.ro_number) today r acc) acc).1 =
      rs.foldl (fun s r =>
        calcRecordStepDb db.stages (transitionsFor db r.ro_number) today r s) acc.1 by
    exact h db.records (db, [])
  intro rs
  induction rs with
  | nil => intro acc; rfl
  | cons r rs ih =>
    intro acc
    rw [List.foldl_cons, List.foldl_cons, ih, calcRecordStep_fst]

theorem pmDb_none (stages : List String) (tl : List Transition) (today ro : String)
    (bucket : ℚ) (tech : String) (cfg : MilestoneCfg) (db : EffDb)
    (h : first_transition_matching stages tl cfg.frm cfg.to_at_least cfg.to_after = none) :
    pmDb stages tl today ro bucket tech cfg db = db := by
  unfold pmDb processMilestone
  rw [h]

theorem pmDb_some (stages : List String) (tl : List Transition) (today ro : String)
    (bucket : ℚ) (tech : String) (cfg : MilestoneCfg) (db : EffDb) (t : Transition)
    (h : first_transition_matching stages tl cfg.frm cfg.to_at_least cfg.to_after = some t) :
    pmDb stages tl today ro bucket tech cfg db =
      if tech = "" ∨ ¬ bucket > 0 then db
      else if |bucket - (get_baseline (ensure_baseline db ro cfg.milestone bucket) ro cfg.milestone +
          sum_adjusted (ensure_baseline db ro cfg.milestone bucket) ro cfg.milestone)| ≥ eps then
        add_adjustment (ensure_baseline db ro cfg.milestone bucket) ro cfg.milestone
          t.from_stage t.to_stage tech
          (bucket - (get_baseline (ensure_baseline db ro cfg.milestone bucket) ro cfg.milestone +
            sum_adjusted (ensure_baseline db ro cfg.milestone bucket) ro cfg.milestone))
          cfg.share today
      else ensure_baseline db ro cfg.milestone bucket := by
  unfold pmDb processMilestone
  rw [h]
  dsimp only
  split_ifs <;> rfl

/-- `pmDb` leaves every table except baselines/adjustments (and the
adjustment id counter) untouched. -/
theorem pmDb_frame (stages : List String) (tl : List Transition) (today ro : String)
    (bucket : ℚ) (tech : String) (cfg : MilestoneCfg) (db : EffDb) :
    (pmDb stages tl today ro bucket tech cfg db).records = db.records ∧
    (pmDb stages tl today ro bucket tech cfg db).stage_transitions = db.stage_transitions ∧
    (pmDb stages tl today ro bucket tech cfg db).credit_overrides = db.credit_overrides ∧
    (pmDb stages tl today ro bucket tech cfg db).stages = db.stages := by
  cases hft : first_transition_matching stages tl cfg.frm cfg.to_at_least cfg.to_after with
  | none => rw [pmDb_none stages tl today ro bucket tech cfg db hft]; exact ⟨rfl, rfl, rfl, rfl⟩
  | some t =>
    rw [pmDb_some stages tl today ro bucket tech cfg db t hft]
    split_ifs with h1 h2
    · exact ⟨rfl, rfl, rfl, rfl⟩
    · exact ⟨((add_adjustment_frame _ _ _ _ _ _ _ _ _).2.1).trans
          (ensure_baseline_frame _ _ _ _).2.1,
        ((add_adjustment_frame _ _ _ _ _ _ _ _ _).2.2.1).trans
          (ensure_baseline_frame _ _ _ _).2.2.1,
        ((add_adjustment_frame _ _ _ _ _ _ _ _ _).2.2.2.1).trans
          (ensure_baseline_frame _ _ _ _).2.2.2.1,
        ((add_adjustment_frame _ _ _ _ _ _ _ _ _).2.2.2.2).trans
          (ensure_baseline_frame _ _ _ _).2.2.2.2.1⟩
    · exact ⟨(ensure_baseline_frame _ _ _ _).2.1, (ensure_baseline_frame _ _ _ _).2.2.1,
        (ensure_baseline_frame _ _ _ _).2.2.2.1, (ensure_baseline_frame _ _ _ _).2.2.2.2.1⟩

theorem pmDb_baseline_pres (stages : List String) (tl : List Transition) (today ro : String)
    (bucket : ℚ) (tech : String) (cfg : MilestoneCfg) (db : EffDb) (ro2 m2 : String)
    (h : baselineExists db ro2 m2 = true) :
    get_baseline (pmDb stages tl today ro bucket tech cfg db) ro2 m2 = get_baseline db ro2 m2 ∧
    baselineExists (pmDb stages tl today ro bucket tech cfg db) ro2 m2 = true := by
  cases hft : first_transition_matching stages tl cfg.frm cfg.to_at_least cfg.to_after with
  | none => rw [pmDb_none stages tl today ro bucket tech cfg db hft]; exact ⟨rfl, h⟩
  | some t =>
    rw [pmDb_some stages tl today ro bucket tech cfg db t hft]
    split_ifs with h1 h2
    · exact ⟨rfl, h⟩
    · have hbase := (add_adjustment_frame (ensure_baseline db ro cfg.milestone bucket)
        ro cfg.milestone t.from_stage t.to_stage tech
        (bucket - (get_baseline (ensure_baseline db ro cfg.milestone bucket) ro cfg.milestone +
          sum_adjusted (ensure_baseline db ro cfg.milestone bucket) ro cfg.milestone))
        cfg.share today).1
      have he := ensure_baseline_pres db ro cfg.milestone bucket ro2 m2 h
      exact ⟨(get_baseline_ext _ _ hbase ro2 m2).trans he.1,
        (baselineExists_ext _ _ hbase ro2 m2).trans he.2⟩
    · exact ensure_baseline_pres db ro cfg.milestone bucket ro2 m2 h

theorem ensure_baseline_keys (db : EffDb) (ro m : String) (b : ℚ)
    (h : (baselineKeys db).Nodup) : (baselineKeys (ensure_baseline db ro m b)).Nodup := by
  unfold ensure_baseline
  split_ifs with hex
  · exact h
  · unfold baselineKeys
    rw [List.map_append]
    refine List.Nodup.append h (by simp) ?_
    intro a ha hb
    simp only [List.map_cons, List.map_nil, List.mem_singleton] at hb
    subst hb
    obtain ⟨row, hrow, hre⟩ := List.mem_map.mp ha
    apply hex
    unfold baselineExists
    refine List.any_eq_true.mpr ⟨row, hrow, ?_⟩
    have h1 : row.ro_number = ro := congrArg Prod.fst hre
    have h2 : row.milestone = m := congrArg Prod.snd hre
    simp [h1, h2]

theorem baselineKeys_ext (db1 db2 : EffDb) (h : db1.credit_baseline = db2.credit_baseline) :
    baselineKeys db1 = baselineKeys db2 := by
  unfold baselineKeys
  rw [h]

theorem pmDb_baseline_keys (stages : List String) (tl : List Transition) (today ro : String)
    (bucket : ℚ) (tech : String) (cfg : MilestoneCfg) (db : EffDb)
    (h : (baselineKeys db).Nodup) :
    (baselineKeys (pmDb stages tl today ro bucket tech cfg db)).Nodup := by
  cases hft : first_transition_matching stages tl cfg.frm cfg.to_at_least cfg.to_after with
  | none => rw [pmDb_none stages tl today ro bucket tech cfg db hft]; exact h
  | some t =>
    rw [pmDb_some stages tl today ro bucket tech cfg db t hft]
    split_ifs with h1 h2
    · exact h
    · rw [baselineKeys_ext _ _ (add_adjustment_frame _ _ _ _ _ _ _ _ _).1]
      exact ensure_baseline_keys db ro cfg.milestone bucket h
    · exact ensure_baseline_keys db ro cfg.milestone bucket h

theorem pmFold_baseline_pres (stages : List String) (tl : List Transition) (today ro : String)
    (ms : List (MilestoneCfg × ℚ × String)) (db : EffDb) (ro2 m2 : String)
    (h : baselineExists db ro2 m2 = true) :
    get_baseline (ms.foldl (fun s m => pmDb stages tl today ro m.2.1 m.2.2 m.1 s) db) ro2 m2 =
      get_baseline db ro2 m2 ∧
    baselineExists (ms.foldl (fun s m => pmDb stages tl today ro m.2.1 m.2.2 m.1 s) db) ro2 m2 =
      true := by
  induction ms generalizing db with
  | nil => exact ⟨rfl, h⟩
  | cons m ms ih =>
    rw [List.foldl_cons]
    have hstep := pmDb_baseline_pres stages tl today ro m.2.1 m.2.2 m.1 db ro2 m2 h
    have := ih (pmDb stages tl today ro m.2.1 m.2.2 m.1 db) hstep.2
    exact ⟨this.1.trans hstep.1, this.2⟩

theorem calcPassDb_baseline_pres (stages : List String) (tlOf : String → List Transition)
    (today : String) (rs : List RecordRow) (db : EffDb) (ro2 m2 : String)
    (h : baselineExists db ro2 m2 = true) :
    get_baseline (calcPassDb stages tlOf today rs db) ro2 m2 = get_baseline db ro2 m2 ∧
    baselineExists (calcPassDb stages tlOf today rs db) ro2 m2 = true := by
  induction rs generalizing db with
  | nil => exact ⟨rfl, h⟩
  | cons r rs ih =>
    unfold calcPassDb
    rw [List.foldl_cons]
    have hstep : get_baseline (calcRecordStepDb stages (tlOf r.ro_number) today r db) ro2 m2 =
        get_baseline db ro2 m2 ∧
        baselineExists (calcRecordStepDb stages (tlOf r.ro_number) today r db) ro2 m2 = true := by
      unfold calcRecordStepDb
      exact pmFold_baseline_pres stages (tlOf r.ro_number) today r.ro_number
        (recordMilestones r) db ro2 m2 h
    have h2 := ih (calcRecordStepDb stages (tlOf r.ro_number) today r db) hstep.2
    unfold calcPassDb at h2
    exact ⟨h2.1.trans hstep.1, h2.2⟩

theorem calcPassDb_baseline_keys (stages : List String) (tlOf : String → List Transition)
    (today : String) (rs : List RecordRow) (db : EffDb)
    (h : (baselineKeys db).Nodup) : (baselineKeys (calcPassDb stages tlOf today rs db)).Nodup := by
  induction rs generalizing db with
  | nil => exact h
  | cons r rs ih =>
    unfold calcPassDb
    rw [List.foldl_cons]
    have hstep : (baselineKeys (calcRecordStepDb stages (tlOf r.ro_number) today r db)).Nodup := by
      unfold calcRecordStepDb
      generalize recordMilestones r = ms
      clear ih
      induction ms generalizing db with
      | nil => exact h
      | cons m ms ih2 =>
        rw [List.foldl_cons]
        exact ih2 _ (pmDb_baseline_keys stages (tlOf r.ro_number) today r.ro_number
          m.2.1 m.2.2 m.1 db h)
    exact ih _ hstep

theorem upsert_override_baseline (db : EffDb) (ro frm toS note date tech : String) (hours : ℚ) :
    (upsert_override db ro frm toS note date tech hours).credit_baseline = db.credit_baseline := by
  unfold upsert_override
  split_ifs <;> rfl

theorem delete_selected_credit_baseline (db : EffDb) (r : CreditRow) :
    (delete_selected_credit_row db r).credit_baseline = db.credit_baseline := by
  unfold delete_selected_credit_row delete_override
  dsimp only
  split_ifs <;> try rfl
  all_goals
    rcases noteMilestone (strTrim r.note) with - | ⟨m, s⟩ <;> dsimp only <;> split_ifs <;> rfl

/-! ## Claim C3 -/

/-- C3: once a credit-baseline row exists for a (ro_number, milestone) key, no
operation changes its `base_hours`: recompute only inserts baselines for keys
with no existing row (`INSERT` guarded by a prior `SELECT`) and never updates
one, so with unique keys the stored value is written at most once; bucket
edits, override upserts/deletes and supplement deletion never touch
`credit_baseline` at all. -/
theorem c3_baseline_immutable (db : EffDb) (today : String) :
    (∀ ro m, baselineExists db ro m = true →
      get_baseline (calc_credits db today).1 ro m = get_baseline db ro m ∧
      baselineExists (calc_credits db today).1 ro m = true) ∧
    ((baselineKeys db).Nodup → (baselineKeys (calc_credits db today).1).Nodup) ∧
    (∀ ro v, (set_body_hours db ro v).credit_baseline = db.credit_baseline) ∧
    (∀ ro v, (set_paint_hours db ro v).credit_baseline = db.credit_baseline) ∧
    (∀ ro frm toS note date tech hours,
      (upsert_override db ro frm toS note date tech hours).credit_baseline =
        db.credit_baseline) ∧
    (∀ ro frm toS note,
      (delete_override db ro frm toS note).credit_baseline = db.credit_baseline) ∧
    (∀ r, (delete_selected_credit_row db r).credit_baseline = db.credit_baseline) := by
  refine ⟨fun ro m h => ?_, fun h => ?_, fun ro v => rfl, fun ro v => rfl,
    fun ro frm toS note date tech hours => upsert_override_baseline db ro frm toS note date tech hours,
    fun ro frm toS note => rfl,
    fun r => delete_selected_credit_baseline db r⟩
  · rw [calc_credits_fst]
    exact calcPassDb_baseline_pres db.stages (fun ro => transitionsFor db ro) today db.records
      db ro m h
  · rw [calc_credits_fst]
    exact calcPassDb_baseline_keys db.stages (fun ro => transitionsFor db ro) today db.records db h

/-- C3 witness: an existing baseline value survives a recompute pass over a
state whose bucket has since been edited. -/
theorem c3_baseline_immutable_witness :
    get_baseline (calc_credits
      { stages := DEFAULT_STAGES,
        records := [⟨"1", "Paint", 50, 0, "T", "", 0⟩],
        stage_transitions := [⟨1, "1", "Body", "Paint", "01-02-2025"⟩],
        credit_baseline := [⟨"1", "body60", 40⟩], credit_adjustments := [],
        credit_overrides := [], next_trans_id := 2, next_adj_id := 1 } "01-05-2025").1
      "1" "body60" =
    get_baseline
      { stages := DEFAULT_STAGES,
        records := [⟨"1", "Paint", 50, 0, "T", "", 0⟩],
        stage_transitions := [⟨1, "1", "Body", "Paint", "01-02-2025"⟩],
        credit_baseline := [⟨"1", "body60", 40⟩], credit_adjustments := [],
        credit_overrides := [], next_trans_id := 2, next_adj_id := 1 }
      "1" "body60" :=
  ((c3_baseline_immutable
    { stages := DEFAULT_STAGES,
      records := [⟨"1", "Paint", 50, 0, "T", "", 0⟩],
      stage_transitions := [⟨1, "1", "Body", "Paint", "01-02-2025"⟩],
      credit_baseline := [⟨"1", "body60", 40⟩], credit_adjustments := [],
      credit_overrides := [], next_trans_id := 2, next_adj_id := 1 } "01-05-2025").1
    "1" "body60" (by rfl)).1

theorem add_adjustment_eq (db : EffDb) (ro m f t tech : String) (d s : ℚ) (w : String)
    (h : ¬ |d| < eps) :
    (add_adjustment db ro m f t tech d s w).credit_adjustments =
      db.credit_adjustments ++ [⟨db.next_adj_id, ro, m, f, t, w, tech, d, s⟩] := by
  unfold add_adjustment
  rw [if_neg h]

theorem sum_adjusted_of_append (db1 db2 : EffDb) (row : AdjRow)
    (h : db1.credit_adjustments = db2.credit_adjustments ++ [row]) (ro m : String) :
    sum_adjusted db1 ro m = sum_adjusted db2 ro m +
      (if row.ro_number = ro ∧ row.milestone = m then row.delta_hours else 0) := by
  unfold sum_adjusted
  rw [h, List.filter_append, List.map_append, List.sum_append]
  congr 1
  by_cases hk : row.ro_number = ro ∧ row.milestone = m
  · rw [if_pos hk]
    simp [List.filter_cons, hk.1, hk.2]
  · rw [if_neg hk]
    have : (row.ro_number = ro && row.milestone = m) = false := by
      rcases not_and_or.mp hk with h1 | h1 <;> simp [h1] <;> tauto
    simp [List.filter_cons, this]

/-! ## Claim C1 -/

/-- C1 counterexample: "at any point in time" fails.  In a state reached by
recomputing with `body_hours = 40` (baseline frozen at 40) and then editing
the bucket to 50 — before the next recompute — the milestone pattern matches,
the baseline exists, and `base_hours + Σ delta_hours = 40 ≠ 50`, a divergence
far above ε. -/
theorem c1_counterexample :
    (first_transition_matching dbC1.stages (transitionsFor dbC1 "1")
      "Body" (some "Paint") none).isSome = true ∧
    baselineExists dbC1 "1" "body60" = true ∧
    ((dbC1.records.find? (fun r => r.ro_number = "1")).map RecordRow.body_hours) = some 50 ∧
    ¬ |(50 : ℚ) - (get_baseline dbC1 "1" "body60" + sum_adjusted dbC1 "1" "body60")| < eps := by
  refine ⟨by rfl, by rfl, by rfl, ?_⟩
  rw [show get_baseline dbC1 "1" "body60" = 40 from rfl,
      show sum_adjusted dbC1 "1" "body60" = 0 from rfl,
      show (50 : ℚ) - (40 + 0) = 10 by norm_num,
      abs_of_pos (by norm_num)]
  rw [eps]
  norm_num

/-- One processed milestone block restores the residual invariant: it closes
a divergence of at least ε with exactly one new adjustment equal to the
residual, and inserts nothing when the divergence is below ε. -/
theorem pm_residual (stages : List String) (tl : List Transition)
    (today ro : String) (bucket : ℚ) (tech : String) (cfg : MilestoneCfg) (db : EffDb)
    (t : Transition)
    (hmatch : first_transition_matching stages tl cfg.frm cfg.to_at_least cfg.to_after = some t)
    (htech : tech ≠ "") (hb : 0 < bucket) :
    |residualOf (pmDb stages tl today ro bucket tech cfg db) ro cfg.milestone bucket| < eps ∧
    (|residualOf (ensure_baseline db ro cfg.milestone bucket) ro cfg.milestone bucket| ≥ eps →
      (pmDb stages tl today ro bucket tech cfg db).credit_adjustments =
        db.credit_adjustments ++
          [⟨db.next_adj_id, ro, cfg.milestone, t.from_stage, t.to_stage, today, tech,
            residualOf (ensure_baseline db ro cfg.milestone bucket) ro cfg.milestone bucket,
            cfg.share⟩]) ∧
    (|residualOf (ensure_baseline db ro cfg.milestone bucket) ro cfg.milestone bucket| < eps →
      (pmDb stages tl today ro bucket tech cfg db).credit_adjustments =
        db.credit_adjustments) := by
  rw [pmDb_some stages tl today ro bucket tech cfg db t hmatch]
  rw [if_neg (by push_neg; exact ⟨htech, hb⟩)]
  by_cases heps : |residualOf (ensure_baseline db ro cfg.milestone bucket) ro cfg.milestone bucket| ≥ eps
  · rw [if_pos heps]
    have hnlt : ¬ |residualOf (ensure_baseline db ro cfg.milestone bucket)
        ro cfg.milestone bucket| < eps := not_lt.mpr heps
    have hadj := add_adjustment_eq (ensure_baseline db ro cfg.milestone bucket)
      ro cfg.milestone t.from_stage t.to_stage tech
      (residualOf (ensure_baseline db ro cfg.milestone bucket) ro cfg.milestone bucket)
      cfg.share today hnlt
    have hen := ensure_baseline_frame db ro cfg.milestone bucket
    refine ⟨?_, fun _ => ?_, fun hlt => absurd hlt hnlt⟩
    · have hb2 : get_baseline (add_adjustment (ensure_baseline db ro cfg.milestone bucket)
          ro cfg.milestone t.from_stage t.to_stage tech
          (residualOf (ensure_baseline db ro cfg.milestone bucket) ro cfg.milestone bucket)
          cfg.share today) ro cfg.milestone =
          get_baseline (ensure_baseline db ro cfg.milestone bucket) ro cfg.milestone :=
        get_baseline_ext _ _ (add_adjustment_frame _ _ _ _ _ _ _ _ _).1 ro cfg.milestone
      have hs2 := sum_adjusted_of_append
        (add_adjustment (ensure_baseline db ro cfg.milestone bucket)
          ro cfg.milestone t.from_stage t.to_stage tech
          (residualOf (ensure_baseline db ro cfg.milestone bucket) ro cfg.milestone bucket)
          cfg.share today)
        (ensure_baseline db ro cfg.milestone bucket)
        ⟨(ensure_baseline db ro cfg.milestone bucket).next_adj_id, ro, cfg.milestone,
          t.from_stage, t.to_stage, today, tech,
          residualOf (ensure_baseline db ro cfg.milestone bucket) ro cfg.milestone bucket,
          cfg.share⟩
        (by rw [add_adjustment_eq _ _ _ _ _ _ _ _ _ hnlt]) ro cfg.milestone
      rw [if_pos ⟨rfl, rfl⟩] at hs2
      unfold residualOf
      rw [hb2, hs2]
      have : bucket - (get_baseline (ensure_baseline db ro cfg.milestone bucket) ro cfg.milestone +
          (sum_adjusted (ensure_baseline db ro cfg.milestone bucket) ro cfg.milestone +
            residualOf (ensure_baseline db ro cfg.milestone bucket) ro cfg.milestone bucket)) =
          0 := by
        unfold residualOf
        ring
      rw [this]
      rw [abs_zero, eps]
      norm_num
    · rw [hadj, hen.2.2.2.2.2, hen.1]
  · rw [if_neg heps]
    have hlt := not_le.mp heps
    exact ⟨by
        have : residualOf (ensure_baseline db ro cfg.milestone bucket) ro cfg.milestone bucket =
            residualOf (ensure_baseline db ro cfg.milestone bucket) ro cfg.milestone bucket := rfl
        exact hlt,
      fun hge => absurd hge heps, fun _ => (ensure_baseline_frame db ro cfg.milestone bucket).1⟩

/-- C1 (amended): after a recompute pass processes a milestone (its pattern
matches a transition, the responsible tech is assigned, and the bucket is
positive), the stored baseline plus the sum of all adjustment deltas for that
(ro_number, milestone) key equals the current bucket value to within ε = 1e-6
— exactly, whenever an adjustment was inserted — and a divergence of at least
ε (measured after the lazy baseline insert) is closed by inserting exactly one
new adjustment equal to the residual; a divergence below ε inserts nothing. -/
theorem c1_residual_conservation (stages : List String) (tl : List Transition)
    (today ro : String) (bucket : ℚ) (tech : String) (cfg : MilestoneCfg) (db : EffDb)
    (t : Transition)
    (hmatch : first_transition_matching stages tl cfg.frm cfg.to_at_least cfg.to_after = some t)
    (htech : tech ≠ "") (hb : 0 < bucket) :
    |residualOf (pmDb stages tl today ro bucket tech cfg db) ro cfg.milestone bucket| < eps ∧
    (|residualOf (ensure_baseline db ro cfg.milestone bucket) ro cfg.milestone bucket| ≥ eps →
      (pmDb stages tl today ro bucket tech cfg db).credit_adjustments =
        db.credit_adjustments ++
          [⟨db.next_adj_id, ro, cfg.milestone, t.from_stage, t.to_stage, today, tech,
            residualOf (ensure_baseline db ro cfg.milestone bucket) ro cfg.milestone bucket,
            cfg.share⟩]) ∧
    (|residualOf (ensure_baseline db ro cfg.milestone bucket) ro cfg.milestone bucket| < eps →
      (pmDb stages tl today ro bucket tech cfg db).credit_adjustments =
        db.credit_adjustments) :=
  pm_residual stages tl today ro bucket tech cfg db t hmatch htech hb

/-- C1 witness: recomputing `dbC1` (bucket edited 40 → 50) inserts exactly one
adjustment of +10 hours, restoring `base + Σ delta = 50`. -/
theorem c1_residual_conservation_witness :
    (pmDb DEFAULT_STAGES [⟨1, "1", "Body", "Paint", "01-02-2025"⟩] "01-05-2025"
        "1" 50 "T" BODY60 dbC1).credit_adjustments =
      dbC1.credit_adjustments ++
        [⟨1, "1", "body60", "Body", "Paint", "01-05-2025", "T", 10, 6/10⟩] := by
  have hres : residualOf (ensure_baseline dbC1 "1" BODY60.milestone 50) "1"
      BODY60.milestone 50 = 10 := by
    show (50 : ℚ) - (get_baseline (ensure_baseline dbC1 "1" BODY60.milestone 50) "1"
      BODY60.milestone + sum_adjusted (ensure_baseline dbC1 "1" BODY60.milestone 50) "1"
      BODY60.milestone) = 10
    rw [show get_baseline (ensure_baseline dbC1 "1" BODY60.milestone 50) "1"
          BODY60.milestone = 40 from rfl,
        show sum_adjusted (ensure_baseline dbC1 "1" BODY60.milestone 50) "1"
          BODY60.milestone = 0 from rfl]
    norm_num
  have h := (c1_residual_conservation DEFAULT_STAGES
    [⟨1, "1", "Body", "Paint", "01-02-2025"⟩] "01-05-2025" "1" 50 "T" BODY60 dbC1
    ⟨1, "1", "Body", "Paint", "01-02-2025"⟩ (by rfl) (by decide) (by norm_num)).2.1
    (by rw [hres, abs_of_pos (by norm_num), eps]; norm_num)
  rw [hres] at h
  exact h

/-! ## Lemmas towards idempotent recompute (C2) -/

theorem safe_log_credit_frame (db : RODb) (now : String) (ro : Nat) (emp : String)
    (h : ℚ) (note : String) :
    (safe_log_credit db now ro emp h note).repair_orders = db.repair_orders ∧
    (safe_log_credit db now ro emp h note).ro_stage_history = db.ro_stage_history := by
  unfold safe_log_credit
  split_ifs <;> exact ⟨rfl, rfl⟩

theorem auditHas_mono (db : RODb) (now : String) (ro : Nat) (emp : String) (h : ℚ)
    (note : String) (k : Nat) (e n : String) (hh : auditHas db k e n = true) :
    auditHas (safe_log_credit db now ro emp h note) k e n = true := by
  unfold safe_log_credit
  split_ifs
  · exact hh
  · exact hh
  · unfold auditHas at hh ⊢
    rw [List.any_append, hh]
    rfl

theorem safe_log_credit_posts (db : RODb) (now : String) (ro : Nat) (emp : String)
    (hq : ℚ) (note : String) (hemp : ¬(emp = "" ∨ emp = "Unassigned" ∨ hq = 0)) :
    auditHas (safe_log_credit db now ro emp hq note) ro emp note = true := by
  unfold safe_log_credit
  by_cases hx1 : emp = "" ∨ emp = "Unassigned" ∨ hq = 0
  · exact absurd hx1 hemp
  rw [if_neg hx1]
  by_cases hx2 : auditHas db ro emp note = true
  · rw [if_pos hx2]
    exact hx2
  · rw [if_neg hx2]
    unfold auditHas
    rw [List.any_append]
    have hone : [(⟨now, ro, emp, hq, note⟩ : AuditEntry)].any (keyMatch ro emp note) = true := by
      simp [keyMatch]
    rw [hone]
    simp

theorem safe_log_credit_skip (db : RODb) (now : String) (ro : Nat) (emp : String)
    (hq : ℚ) (note : String) (hh : auditHas db ro emp note = true) :
    safe_log_credit db now ro emp hq note = db := by
  unfold safe_log_credit
  by_cases hx1 : emp = "" ∨ emp = "Unassigned" ∨ hq = 0
  · rw [if_pos hx1]
  · rw [if_neg hx1, if_pos hh]

theorem findRO_ext (db1 db2 : RODb) (h : db1.repair_orders = db2.repair_orders) (i : Nat) :
    findRO db1 i = findRO db2 i := by
  unfold findRO
  rw [h]

theorem auditHas_ext (db1 db2 : RODb) (h : db1.credit_audit = db2.credit_audit)
    (k : Nat) (e n : String) : auditHas db1 k e n = auditHas db2 k e n := by
  unfold auditHas
  rw [h]

theorem find?_map_pres {α : Type} (p : α → Bool) (f : α → α) (hf : ∀ a, p (f a) = p a) :
    ∀ (l : List α), (l.map f).find? p = (l.find? p).map f := by
  intro l
  induction l with
  | nil => rfl
  | cons x xs ih =>
    rw [List.map_cons]
    by_cases hx : p x = true
    · rw [List.find?_cons_of_pos _ (by rw [hf]; exact hx), List.find?_cons_of_pos _ hx]
      rfl
    · rw [List.find?_cons_of_neg _ (by rw [hf]; simpa using hx),
          List.find?_cons_of_neg _ (by simpa using hx)]
      exact ih

theorem findRO_setHours (db : RODb) (i : Nat) (a b : ℚ) (r : RepairOrderRow)
    (hr : findRO db i = some r) :
    findRO (setHours db i a b) i =
      some { r with hours_taken := a, hours_remaining := b } := by
  unfold findRO setHours
  dsimp only
  rw [find?_map_pres _ _ (fun q => by split_ifs <;> rfl)]
  unfold findRO at hr
  rw [hr]
  have hid : r.id = i := by simpa using List.find?_some hr
  simp [hid]

theorem ite_safe_history (c : Prop) [Decidable c] (s : RODb) (n2 : String) (r2 : Nat)
    (e2 : String) (h2 : ℚ) (nt2 : String) :
    (if c then safe_log_credit s n2 r2 e2 h2 nt2 else s).ro_stage_history =
      s.ro_stage_history := by
  split_ifs
  · exact (safe_log_credit_frame s n2 r2 e2 h2 nt2).2
  · rfl

theorem ite_safe_findRO (c : Prop) [Decidable c] (s : RODb) (n2 : String) (r2 : Nat)
    (e2 : String) (h2 : ℚ) (nt2 : String) (j : Nat) :
    findRO (if c then safe_log_credit s n2 r2 e2 h2 nt2 else s) j = findRO s j := by
  split_ifs with hc
  · exact findRO_ext _ _ (safe_log_credit_frame s n2 r2 e2 h2 nt2).1 j
  · rfl

theorem ite_safe_auditHas (c : Prop) [Decidable c] (s : RODb) (n2 : String) (r2 : Nat)
    (e2 : String) (h2 : ℚ) (nt2 : String) (k : Nat) (e n : String)
    (hh : auditHas s k e n = true) :
    auditHas (if c then safe_log_credit s n2 r2 e2 h2 nt2 else s) k e n = true := by
  split_ifs with hc
  · exact auditHas_mono s n2 r2 e2 h2 nt2 k e n hh
  · exact hh

theorem uroIndices_ext (db1 db2 : RODb) (h : db1.ro_stage_history = db2.ro_stage_history)
    (i : Nat) : uroIndices db1 i = uroIndices db2 i := by
  unfold uroIndices
  rw [h]

theorem uroCore_hist (db : RODb) (now : String) (i : Nat) (r : RepairOrderRow) :
    (uroCore db now i r).ro_stage_history = db.ro_stage_history := by
  unfold uroCore
  cases (uroIndices db i).max? with
  | none => rfl
  | some furthest =>
    dsimp only
    show (_ : RODb).ro_stage_history = db.ro_stage_history
    simp only [setHours, ite_safe_history]

theorem uroCore_find (db : RODb) (now : String) (i : Nat) (r : RepairOrderRow)
    (hr : findRO db i = some r) :
    ∃ a b, findRO (uroCore db now i r) i =
      some { r with hours_taken := a, hours_remaining := b } := by
  unfold uroCore
  cases (uroIndices db i).max? with
  | none => exact ⟨0, max (r.ro_hours - 0) 0, findRO_setHours db i _ _ r hr⟩
  | some furthest =>
    dsimp only
    refine ⟨_, _, findRO_setHours _ i _ _ r ?_⟩
    simp only [ite_safe_findRO]
    exact hr

theorem uroCore_posts (db : RODb) (now : String) (i : Nat) (r : RepairOrderRow)
    (furthest : Nat) (hmax : (uroIndices db i).max? = some furthest) :
    (uroCond1 furthest r →
      auditHas (uroCore db now i r) r.ro_number r.tech "Body phase completed (60%)" = true) ∧
    (uroCond2 furthest r →
      auditHas (uroCore db now i r) r.ro_number r.tech "Reassembly phase completed (40%)" = true) ∧
    (uroCond3 furthest r →
      auditHas (uroCore db now i r) r.ro_number r.painter "Refinish phase completed" = true) ∧
    (uroCond4 furthest r →
      auditHas (uroCore db now i r) r.ro_number r.mechanic "Mechanical phase completed" = true) := by
  unfold uroCore
  rw [hmax]
  dsimp only
  refine ⟨fun hc => ?_, fun hc => ?_, fun hc => ?_, fun hc => ?_⟩
  all_goals rw [show ∀ (s : RODb) (j : Nat) (t rem : ℚ) (k : Nat) (e n : String),
    auditHas (setHours s j t rem) k e n = auditHas s k e n from fun s j t rem k e n => rfl]
  · apply ite_safe_auditHas
    apply ite_safe_auditHas
    apply ite_safe_auditHas
    rw [if_pos hc]
    apply safe_log_credit_posts
    push_neg
    exact ⟨hc.2.2.1, hc.2.2.2, mul_ne_zero (ne_of_gt hc.2.1) (by norm_num)⟩
  · apply ite_safe_auditHas
    apply ite_safe_auditHas
    rw [if_pos hc]
    apply safe_log_credit_posts
    push_neg
    exact ⟨hc.2.2.1, hc.2.2.2, mul_ne_zero (ne_of_gt hc.2.1) (by norm_num)⟩
  · apply ite_safe_auditHas
    rw [if_pos hc]
    apply safe_log_credit_posts
    push_neg
    exact ⟨hc.2.2.1, hc.2.2.2, ne_of_gt hc.2.1⟩
  · rw [if_pos hc]
    apply safe_log_credit_posts
    push_neg
    exact ⟨hc.2.2.1, hc.2.2.2, ne_of_gt hc.2.1⟩

theorem uroCore_audit_none (db : RODb) (now : String) (i : Nat) (r : RepairOrderRow)
    (hmax : (uroIndices db i).max? = none) :
    (uroCore db now i r).credit_audit = db.credit_audit := by
  unfold uroCore
  rw [hmax]
  rfl

theorem uroCore_audit_noop (db : RODb) (now : String) (i : Nat) (r : RepairOrderRow)
    (furthest : Nat) (hmax : (uroIndices db i).max? = some furthest)
    (h1 : uroCond1 furthest r →
      auditHas db r.ro_number r.tech "Body phase completed (60%)" = true)
    (h2 : uroCond2 furthest r →
      auditHas db r.ro_number r.tech "Reassembly phase completed (40%)" = true)
    (h3 : uroCond3 furthest r →
      auditHas db r.ro_number r.painter "Refinish phase completed" = true)
    (h4 : uroCond4 furthest r →
      auditHas db r.ro_number r.mechanic "Mechanical phase completed" = true) :
    (uroCore db now i r).credit_audit = db.credit_audit := by
  unfold uroCore
  rw [hmax]
  dsimp only
  have e1 : (if uroCond1 furthest r then
      safe_log_credit db now r.ro_number r.tech (r.body_hours * (6/10))
        "Body phase completed (60%)" else db) = db := by
    split_ifs with hc
    · exact safe_log_credit_skip db now r.ro_number r.tech _ _ (h1 hc)
    · rfl
  rw [e1]
  have e2 : (if uroCond2 furthest r then
      safe_log_credit db now r.ro_number r.tech (r.body_hours * (4/10))
        "Reassembly phase completed (40%)" else db) = db := by
    split_ifs with hc
    · exact safe_log_credit_skip db now r.ro_number r.tech _ _ (h2 hc)
    · rfl
  rw [e2]
  have e3 : (if uroCond3 furthest r then
      safe_log_credit db now r.ro_number r.painter r.refinish_hours
        "Refinish phase completed" else db) = db := by
    split_ifs with hc
    · exact safe_log_credit_skip db now r.ro_number r.painter _ _ (h3 hc)
    · rfl
  rw [e3]
  have e4 : (if uroCond4 furthest r then
      safe_log_credit db now r.ro_number r.mechanic r.mechanical_hours
        "Mechanical phase completed" else db) = db := by
    split_ifs with hc
    · exact safe_log_credit_skip db now r.ro_number r.mechanic _ _ (h4 hc)
    · rfl
  rw [e4]
  rfl

/-- Running `update_ro_hours` twice appends nothing to `credit_audit` the
second time. -/
theorem update_audit_stable (db : RODb) (now now' : String) (i : Nat) :
    (update_ro_hours (update_ro_hours db now i) now' i).credit_audit =
      (update_ro_hours db now i).credit_audit := by
  cases hr : findRO db i with
  | none =>
    have h1 : update_ro_hours db now i = db := by
      unfold update_ro_hours
      rw [hr]
    rw [h1]
    have h2 : update_ro_hours db now' i = db := by
      unfold update_ro_hours
      rw [hr]
    rw [h2]
  | some r =>
    have h1 : update_ro_hours db now i = uroCore db now i r := by
      unfold update_ro_hours
      rw [hr]
    rw [h1]
    obtain ⟨a, b, hfind2⟩ := uroCore_find db now i r hr
    have h2 : update_ro_hours (uroCore db now i r) now' i =
        uroCore (uroCore db now i r) now' i
          { r with hours_taken := a, hours_remaining := b } := by
      unfold update_ro_hours
      rw [hfind2]
    rw [h2]
    have hidx : uroIndices (uroCore db now i r) i = uroIndices db i :=
      uroIndices_ext _ _ (uroCore_hist db now i r) i
    cases hmax : (uroIndices db i).max? with
    | none =>
      exact uroCore_audit_none _ now' i _ (by rw [hidx, hmax])
    | some furthest =>
      have hposts := uroCore_posts db now i r furthest hmax
      exact uroCore_audit_noop _ now' i _ furthest (by rw [hidx, hmax])
        (fun hc => hposts.1 hc) (fun hc => hposts.2.1 hc)
        (fun hc => hposts.2.2.1 hc) (fun hc => hposts.2.2.2 hc)

theorem ensure_baseline_skip (db : EffDb) (ro m : String) (b : ℚ)
    (h : baselineExists db ro m = true) : ensure_baseline db ro m b = db := by
  unfold ensure_baseline
  rw [if_pos h]

theorem ensure_baseline_self (db : EffDb) (ro m : String) (b : ℚ) :
    baselineExists (ensure_baseline db ro m b) ro m = true := by
  unfold ensure_baseline
  split_ifs with h
  · exact h
  · unfold baselineExists
    rw [List.any_append]
    simp

theorem pmDb_notcond (stages : List String) (tl : List Transition) (today ro : String)
    (bucket : ℚ) (tech : String) (cfg : MilestoneCfg) (db : EffDb)
    (h : ¬ Cond stages tl bucket tech cfg) :
    pmDb stages tl today ro bucket tech cfg db = db := by
  cases hft : first_transition_matching stages tl cfg.frm cfg.to_at_least cfg.to_after with
  | none => exact pmDb_none stages tl today ro bucket tech cfg db hft
  | some t =>
    rw [pmDb_some stages tl today ro bucket tech cfg db t hft]
    rw [if_pos ?hc]
    case hc =>
      by_contra hcon
      push_neg at hcon
      exact h ⟨by rw [hft]; rfl, hcon.1, hcon.2⟩

theorem pmDb_settled (stages : List String) (tl : List Transition) (today ro : String)
    (bucket : ℚ) (tech : String) (cfg : MilestoneCfg) (db : EffDb)
    (h : Settled db ro cfg.milestone bucket) :
    pmDb stages tl today ro bucket tech cfg db = db := by
  cases hft : first_transition_matching stages tl cfg.frm cfg.to_at_least cfg.to_after with
  | none => exact pmDb_none stages tl today ro bucket tech cfg db hft
  | some t =>
    rw [pmDb_some stages tl today ro bucket tech cfg db t hft]
    split_ifs with h1 h2
    · rfl
    · rw [ensure_baseline_skip db ro cfg.milestone bucket h.1] at h2
      exact absurd h2 (not_le.mpr h.2)
    · exact ensure_baseline_skip db ro cfg.milestone bucket h.1

theorem pmDb_settles (stages : List String) (tl : List Transition) (today ro : String)
    (bucket : ℚ) (tech : String) (cfg : MilestoneCfg) (db : EffDb)
    (hc : Cond stages tl bucket tech cfg) :
    Settled (pmDb stages tl today ro bucket tech cfg db) ro cfg.milestone bucket := by
  obtain ⟨hsome, htech, hb⟩ := hc
  obtain ⟨t, hmatch⟩ := Option.isSome_iff_exists.mp hsome
  constructor
  · rw [pmDb_some stages tl today ro bucket tech cfg db t hmatch,
        if_neg (by push_neg; exact ⟨htech, hb⟩)]
    split_ifs with heps
    · rw [baselineExists_ext _ _ (add_adjustment_frame _ _ _ _ _ _ _ _ _).1]
      exact ensure_baseline_self db ro cfg.milestone bucket
    · exact ensure_baseline_self db ro cfg.milestone bucket
  · exact (pm_residual stages tl today ro bucket tech cfg db t hmatch htech hb).1

theorem pmDb_sum_other (stages : List String) (tl : List Transition) (today ro : String)
    (bucket : ℚ) (tech : String) (cfg : MilestoneCfg) (db : EffDb) (ro2 m2 : String)
    (hne : ¬(ro = ro2 ∧ cfg.milestone = m2)) :
    sum_adjusted (pmDb stages tl today ro bucket tech cfg db) ro2 m2 =
      sum_adjusted db ro2 m2 := by
  cases hft : first_transition_matching stages tl cfg.frm cfg.to_at_least cfg.to_after with
  | none => rw [pmDb_none stages tl today ro bucket tech cfg db hft]
  | some t =>
    rw [pmDb_some stages tl today ro bucket tech cfg db t hft]
    split_ifs with h1 heps
    · rfl
    · have hadd := add_adjustment_eq (ensure_baseline db ro cfg.milestone bucket)
        ro cfg.milestone t.from_stage t.to_stage tech
        (bucket - (get_baseline (ensure_baseline db ro cfg.milestone bucket) ro cfg.milestone +
          sum_adjusted (ensure_baseline db ro cfg.milestone bucket) ro cfg.milestone))
        cfg.share today (not_lt.mpr heps)
      rw [sum_adjusted_of_append _ _ _ hadd ro2 m2, if_neg hne, add_zero]
      exact sum_adjusted_ext _ _ (ensure_baseline_frame db ro cfg.milestone bucket).1 ro2 m2
    · exact sum_adjusted_ext _ _ (ensure_baseline_frame db ro cfg.milestone bucket).1 ro2 m2

theorem pmDb_settled_pres (stages : List String) (tl : List Transition) (today ro : String)
    (bucket : ℚ) (tech : String) (cfg : MilestoneCfg) (db : EffDb) (ro2 m2 : String)
    (b2 : ℚ) (hne : ¬(ro = ro2 ∧ cfg.milestone = m2)) (h : Settled db ro2 m2 b2) :
    Settled (pmDb stages tl today ro bucket tech cfg db) ro2 m2 b2 := by
  have hp := pmDb_baseline_pres stages tl today ro bucket tech cfg db ro2 m2 h.1
  refine ⟨hp.2, ?_⟩
  rw [hp.1, pmDb_sum_other stages tl today ro bucket tech cfg db ro2 m2 hne]
  exact h.2

theorem recordStepDb_eq (stages : List String) (tl : List Transition) (today : String)
    (r : RecordRow) (db : EffDb) :
    calcRecordStepDb stages tl today r db =
      pmDb stages tl today r.ro_number r.paint_hours (strTrim r.painter_name) PAINT100
        (pmDb stages tl today r.ro_number r.body_hours (strTrim r.body_tech_name) BODY40
          (pmDb stages tl today r.ro_number r.body_hours (strTrim r.body_tech_name) BODY60 db)) :=
  rfl

theorem milestone_keys_ne :
    BODY40.milestone ≠ BODY60.milestone ∧ PAINT100.milestone ≠ BODY60.milestone ∧
    PAINT100.milestone ≠ BODY40.milestone := by
  refine ⟨?_, ?_, ?_⟩ <;> decide

theorem recordStepDb_settles (stages : List String) (tl : List Transition) (today : String)
    (r : RecordRow) (db : EffDb) :
    ∀ m ∈ recordMilestones r, Cond stages tl m.2.1 m.2.2 m.1 →
      Settled (calcRecordStepDb stages tl today r db) r.ro_number m.1.milestone m.2.1 := by
  intro m hm hc
  rw [recordStepDb_eq]
  simp only [recordMilestones, List.mem_cons, List.not_mem_nil, or_false] at hm
  rcases hm with rfl | rfl | rfl
  · dsimp only at hc ⊢
    refine pmDb_settled_pres _ _ _ _ _ _ PAINT100 _ _ _ _
      (fun hcon => milestone_keys_ne.2.1 hcon.2) ?_
    refine pmDb_settled_pres _ _ _ _ _ _ BODY40 _ _ _ _
      (fun hcon => milestone_keys_ne.1 hcon.2) ?_
    exact pmDb_settles stages tl today r.ro_number r.body_hours
      (strTrim r.body_tech_name) BODY60 db hc
  · dsimp only at hc ⊢
    refine pmDb_settled_pres _ _ _ _ _ _ PAINT100 _ _ _ _
      (fun hcon => milestone_keys_ne.2.2 hcon.2) ?_
    exact pmDb_settles stages tl today r.ro_number r.body_hours
      (strTrim r.body_tech_name) BODY40 _ hc
  · dsimp only at hc ⊢
    exact pmDb_settles stages tl today r.ro_number r.paint_hours
      (strTrim r.painter_name) PAINT100 _ hc

theorem recordStepDb_settled_pres (stages : List String) (tl : List Transition)
    (today : String) (r : RecordRow) (db : EffDb) (ro2 m2 : String) (b2 : ℚ)
    (hro : r.ro_number ≠ ro2) (h : Settled db ro2 m2 b2) :
    Settled (calcRecordStepDb stages tl today r db) ro2 m2 b2 := by
  rw [recordStepDb_eq]
  refine pmDb_settled_pres _ _ _ _ _ _ PAINT100 _ _ _ _ (fun hcon => hro hcon.1) ?_
  refine pmDb_settled_pres _ _ _ _ _ _ BODY40 _ _ _ _ (fun hcon => hro hcon.1) ?_
  exact pmDb_settled_pres _ _ _ _ _ _ BODY60 _ _ _ _ (fun hcon => hro hcon.1) h

theorem recordStepDb_noop (stages : List String) (tl : List Transition) (today : String)
    (r : RecordRow) (db : EffDb)
    (h : ∀ m ∈ recordMilestones r, Cond stages tl m.2.1 m.2.2 m.1 →
      Settled db r.ro_number m.1.milestone m.2.1) :
    calcRecordStepDb stages tl today r db = db := by
  rw [recordStepDb_eq]
  have e1 : pmDb stages tl today r.ro_number r.body_hours (strTrim r.body_tech_name)
      BODY60 db = db := by
    by_cases hc : Cond stages tl r.body_hours (strTrim r.body_tech_name) BODY60
    · exact pmDb_settled _ _ _ _ _ _ _ _
        (h (BODY60, r.body_hours, strTrim r.body_tech_name) (by simp [recordMilestones]) hc)
    · exact pmDb_notcond _ _ _ _ _ _ _ _ hc
  rw [e1]
  have e2 : pmDb stages tl today r.ro_number r.body_hours (strTrim r.body_tech_name)
      BODY40 db = db := by
    by_cases hc : Cond stages tl r.body_hours (strTrim r.body_tech_name) BODY40
    · exact pmDb_settled _ _ _ _ _ _ _ _
        (h (BODY40, r.body_hours, strTrim r.body_tech_name) (by simp [recordMilestones]) hc)
    · exact pmDb_notcond _ _ _ _ _ _ _ _ hc
  rw [e2]
  by_cases hc : Cond stages tl r.paint_hours (strTrim r.painter_name) PAINT100
  · exact pmDb_settled _ _ _ _ _ _ _ _
      (h (PAINT100, r.paint_hours, strTrim r.painter_name) (by simp [recordMilestones]) hc)
  · exact pmDb_notcond _ _ _ _ _ _ _ _ hc

theorem recordStepDb_frame (stages : List String) (tl : List Transition) (today : String)
    (r : RecordRow) (db : EffDb) :
    (calcRecordStepDb stages tl today r db).records = db.records ∧
    (calcRecordStepDb stages tl today r db).stage_transitions = db.stage_transitions ∧
    (calcRecordStepDb stages tl today r db).stages = db.stages := by
  rw [recordStepDb_eq]
  refine ⟨?_, ?_, ?_⟩
  · rw [(pmDb_frame _ _ _ _ _ _ _ _).1, (pmDb_frame _ _ _ _ _ _ _ _).1,
       (pmDb_frame _ _ _ _ _ _ _ _).1]
  · rw [(pmDb_frame _ _ _ _ _ _ _ _).2.1, (pmDb_frame _ _ _ _ _ _ _ _).2.1,
       (pmDb_frame _ _ _ _ _ _ _ _).2.1]
  · rw [(pmDb_frame _ _ _ _ _ _ _ _).2.2.2, (pmDb_frame _ _ _ _ _ _ _ _).2.2.2,
       (pmDb_frame _ _ _ _ _ _ _ _).2.2.2]

theorem passDb_cons (stages : List String) (tlOf : String → List Transition) (today : String)
    (r : RecordRow) (rs : List RecordRow) (db : EffDb) :
    calcPassDb stages tlOf today (r :: rs) db =
      calcPassDb stages tlOf today rs
        (calcRecordStepDb stages (tlOf r.ro_number) today r db) := by
  unfold calcPassDb
  rw [List.foldl_cons]

theorem passDb_frame (stages : List String) (tlOf : String → List Transition) (today : String)
    (rs : List RecordRow) (db : EffDb) :
    (calcPassDb stages tlOf today rs db).records = db.records ∧
    (calcPassDb stages tlOf today rs db).stage_transitions = db.stage_transitions ∧
    (calcPassDb stages tlOf today rs db).stages = db.stages := by
  induction rs generalizing db with
  | nil => exact ⟨rfl, rfl, rfl⟩
  | cons r rs ih =>
    rw [passDb_cons]
    have hstep := recordStepDb_frame stages (tlOf r.ro_number) today r db
    have hrest := ih (calcRecordStepDb stages (tlOf r.ro_number) today r db)
    exact ⟨hrest.1.trans hstep.1, hrest.2.1.trans hstep.2.1, hrest.2.2.trans hstep.2.2⟩

theorem passDb_settled_pres (stages : List String) (tlOf : String → List Transition)
    (today : String) (ro2 m2 : String) (b2 : ℚ) :
    ∀ (rs : List RecordRow) (db : EffDb), ro2 ∉ rs.map RecordRow.ro_number →
      Settled db ro2 m2 b2 → Settled (calcPassDb stages tlOf today rs db) ro2 m2 b2 := by
  intro rs
  induction rs with
  | nil => intro db _ h; exact h
  | cons r rs ih =>
    intro db hro h
    rw [passDb_cons]
    rw [List.map_cons, List.mem_cons] at hro
    push_neg at hro
    exact ih _ hro.2 (recordStepDb_settled_pres stages (tlOf r.ro_number) today r db ro2 m2 b2
      (fun hcon => hro.1 hcon.symm) h)

theorem passDb_settles (stages : List String) (tlOf : String → List Transition)
    (today : String) :
    ∀ (rs : List RecordRow) (db : EffDb), (rs.map RecordRow.ro_number).Nodup →
    ∀ r ∈ rs, ∀ m ∈ recordMilestones r, Cond stages (tlOf r.ro_number) m.2.1 m.2.2 m.1 →
      Settled (calcPassDb stages tlOf today rs db) r.ro_number m.1.milestone m.2.1 := by
  intro rs
  induction rs with
  | nil => intro db _ r hr; cases hr
  | cons r0 rs ih =>
    intro db hnd r hr m hm hc
    rw [List.map_cons, List.nodup_cons] at hnd
    rcases List.mem_cons.mp hr with rfl | hr'
    · rw [passDb_cons]
      exact passDb_settled_pres stages tlOf today r.ro_number m.1.milestone m.2.1 rs _ hnd.1
        (recordStepDb_settles stages (tlOf r.ro_number) today r db m hm hc)
    · rw [passDb_cons]
      exact ih _ hnd.2 r hr' m hm hc

theorem passDb_noop (stages : List String) (tlOf : String → List Transition)
    (today : String) :
    ∀ (rs : List RecordRow) (db : EffDb),
    (∀ r ∈ rs, ∀ m ∈ recordMilestones r, Cond stages (tlOf r.ro_number) m.2.1 m.2.2 m.1 →
      Settled db r.ro_number m.1.milestone m.2.1) →
    calcPassDb stages tlOf today rs db = db := by
  intro rs
  induction rs with
  | nil => intro db _; rfl
  | cons r rs ih =>
    intro db h
    rw [passDb_cons,
        recordStepDb_noop stages (tlOf r.ro_number) today r db (h r (List.mem_cons_self r rs))]
    exact ih _ (fun r2 hr2 => h r2 (List.mem_cons_of_mem r hr2))

theorem transitionsFor_ext (db1 db2 : EffDb)
    (h : db1.stage_transitions = db2.stage_transitions) (ro : String) :
    transitionsFor db1 ro = transitionsFor db2 ro := by
  unfold transitionsFor
  rw [h]

/-! ## Claim C2 -/

/-- C2: recomputing twice in succession with no intervening change produces
zero new adjustment rows (in fact the whole EfficiencyTab state is unchanged
by the second `_calc_credits` pass, assuming the schema's uniqueness of
`records.ro_number`), and zero new audit entries (the second `update_ro_hours`
run leaves `credit_audit` unchanged, with no hypotheses at all). -/
theorem c2_idempotent_recompute (db : EffDb) (today today' : String)
    (hnd : (db.records.map RecordRow.ro_number).Nodup) :
    (calc_credits (calc_credits db today).1 today').1 = (calc_credits db today).1 ∧
    ∀ (rdb : RODb) (now now' : String) (i : Nat),
      (update_ro_hours (update_ro_hours rdb now i) now' i).credit_audit =
        (update_ro_hours rdb now i).credit_audit := by
  refine ⟨?_, fun rdb now now' i => update_audit_stable rdb now now' i⟩
  rw [calc_credits_fst db today, calc_credits_fst]
  have hfr := passDb_frame db.stages (fun ro => transitionsFor db ro) today db.records db
  rw [hfr.1, hfr.2.2]
  have htl : (fun ro => transitionsFor
      (calcPassDb db.stages (fun ro => transitionsFor db ro) today db.records db) ro) =
      (fun ro => transitionsFor db ro) :=
    funext fun ro => transitionsFor_ext _ _ hfr.2.1 ro
  rw [htl]
  apply passDb_noop
  intro r hr m hm hc
  exact passDb_settles db.stages (fun ro => transitionsFor db ro) today db.records db hnd
    r hr m hm hc


/-- C2 witness: a concrete two-pass recompute is a no-op the second time. -/
theorem c2_idempotent_recompute_witness :
    (calc_credits (calc_credits
      { stages := DEFAULT_STAGES,
        records := [⟨"1", "Paint", 50, 0, "T", "", 0⟩],
        stage_transitions := [⟨1, "1", "Body", "Paint", "01-02-2025"⟩],
        credit_baseline := [⟨"1", "body60", 40⟩], credit_adjustments := [],
        credit_overrides := [], next_trans_id := 2, next_adj_id := 1 } "01-05-2025").1
      "01-06-2025").1 =
    (calc_credits
      { stages := DEFAULT_STAGES,
        records := [⟨"1", "Paint", 50, 0, "T", "", 0⟩],
        stage_transitions := [⟨1, "1", "Body", "Paint", "01-02-2025"⟩],
        credit_baseline := [⟨"1", "body60", 40⟩], credit_adjustments := [],
        credit_overrides := [], next_trans_id := 2, next_adj_id := 1 } "01-05-2025").1 :=
  (c2_idempotent_recompute
    { stages := DEFAULT_STAGES,
      records := [⟨"1", "Paint", 50, 0, "T", "", 0⟩],
      stage_transitions := [⟨1, "1", "Body", "Paint", "01-02-2025"⟩],
      credit_baseline := [⟨"1", "body60", 40⟩], credit_adjustments := [],
      credit_overrides := [], next_trans_id := 2, next_adj_id := 1 }
    "01-05-2025" "01-06-2025" (by decide)).1

/-! ## Lemmas on credit-row deletion -/

theorem filter_not_length_lt {α : Type} (p : α → Bool) (l : List α) :
    ((l.filter (fun a => ¬ p a = true)).length < l.length) ↔ l.filter p ≠ [] := by
  induction l with
  | nil => simp
  | cons a l ih =>
    by_cases ha : p a = true
    · refine iff_of_true ?_ ?_
      · rw [List.filter_cons, if_neg (by simp [ha]), List.length_cons]
        exact Nat.lt_succ_of_le (List.length_filter_le _ _)
      · rw [List.filter_cons, if_pos (by simp [ha])]
        exact List.cons_ne_nil a _
    · rw [List.filter_cons (p := fun a => decide (¬ p a = true)), if_pos (by simp [ha]),
          List.filter_cons (p := p), if_neg (by simp [ha]), List.length_cons, List.length_cons,
          Nat.succ_lt_succ_iff]
      exact ih

theorem delete_baseline_skip (db : EffDb) (r : CreditRow)
    (h : isBaselineNote (strTrim r.note) = true) :
    delete_selected_credit_row db r = db := by
  unfold delete_selected_credit_row
  dsimp only
  rw [if_pos h]

theorem delete_supplement_eq (db : EffDb) (r : CreditRow) (milestone : String) (share : ℚ)
    (hb : isBaselineNote (strTrim r.note) = false)
    (hs : strStarts (strTrim r.note) "Supplement " = true)
    (hm : noteMilestone (strTrim r.note) = some (milestone, share)) :
    (db.credit_adjustments.filter (adjDeleteMatch (strTrim r.ro) milestone
        (strTrim r.from_stage) (strTrim r.to_stage) (strTrim r.date) (strTrim r.tech)
        (recoveredDelta r share)) ≠ [] →
      delete_selected_credit_row db r =
        { db with credit_adjustments := (db.credit_adjustments.filter
            (fun a => ¬ adjDeleteMatch (strTrim r.ro) milestone (strTrim r.from_stage)
              (strTrim r.to_stage) (strTrim r.date) (strTrim r.tech)
              (recoveredDelta r share) a)) }) ∧
    (db.credit_adjustments.filter (adjDeleteMatch (strTrim r.ro) milestone
        (strTrim r.from_stage) (strTrim r.to_stage) (strTrim r.date) (strTrim r.tech)
        (recoveredDelta r share)) = [] →
      delete_selected_credit_row db r =
        delete_override db (strTrim r.ro) (strTrim r.from_stage) (strTrim r.to_stage)
          (strTrim r.note)) := by
  unfold delete_selected_credit_row
  dsimp only
  rw [if_neg (by rw [hb]; exact Bool.false_ne_true), if_pos hs, hm]
  dsimp only
  rw [show (|round2 r.hours| / share *
        (if strContains (strTrim r.note) "Supplement -" = true then -1 else 1) : ℚ) =
      recoveredDelta r share from rfl]
  constructor
  · intro hne
    rw [if_pos ((filter_not_length_lt _ _).mpr hne)]
  · intro hemp
    rw [if_neg (fun hlt => (filter_not_length_lt _ _).mp hlt hemp)]

theorem round2_rowC9 : round2 rowC9.hours = 1/100 := by
  rw [show rowC9.hours = 3/500 by norm_num [rowC9]]
  unfold round2
  rw [if_neg (by norm_num)]
  rw [show ((3:ℚ)/500 * 100 + 1/2) = 11/10 by norm_num]
  rw [show ⌊(11:ℚ)/10⌋ = 1 by norm_num]
  norm_num

theorem recoveredDelta_C9 : recoveredDelta rowC9 (6/10) = 1/60 := by
  have hc : strContains (strTrim rowC9.note) "Supplement -" = false := rfl
  unfold recoveredDelta
  rw [round2_rowC9, hc, if_neg Bool.false_ne_true]
  rw [abs_of_pos (by norm_num : (0:ℚ) < 1/100)]
  norm_num

theorem adm_C9_false :
    adjDeleteMatch (strTrim rowC9.ro) "body60" (strTrim rowC9.from_stage)
      (strTrim rowC9.to_stage) (strTrim rowC9.date) (strTrim rowC9.tech)
      (recoveredDelta rowC9 (6/10)) adjC9 = false := by
  rw [recoveredDelta_C9]
  unfold adjDeleteMatch
  simp [adjC9]
  intros
  rw [abs_sub_comm]
  rw [show |(60:ℚ)⁻¹ - 100⁻¹| = 60⁻¹ - 100⁻¹ from abs_of_pos (by norm_num)]
  norm_num

theorem c9_filter_emp :
    dbC9.credit_adjustments.filter (adjDeleteMatch (strTrim rowC9.ro) "body60"
      (strTrim rowC9.from_stage) (strTrim rowC9.to_stage) (strTrim rowC9.date)
      (strTrim rowC9.tech) (recoveredDelta rowC9 (6/10))) = [] := by
  rw [show dbC9.credit_adjustments = [adjC9] from rfl, List.filter_cons, adm_C9_false]
  simp

theorem fmt2_centi : fmt2 (1/100) = "0.01" := by
  unfold fmt2
  rw [if_neg (by norm_num)]
  unfold fmt2abs
  rw [show ((1:ℚ)/100 * 100 + 1/2) = 3/2 by norm_num]
  rw [show ⌊(3:ℚ)/2⌋ = 1 by norm_num]
  rfl

theorem supplementNote_C9 : supplementNote adjC9.delta_hours BODY60 =
    "Supplement +0.01h (Body 60%)" := by
  unfold supplementNote
  rw [show adjC9.delta_hours = 1/100 from rfl]
  rw [if_pos (by norm_num : (1:ℚ)/100 ≥ 0)]
  rw [abs_of_pos (by norm_num : (0:ℚ) < 1/100), fmt2_centi]
  rfl

theorem round2_rowC9w : round2 rowC9w.hours = 6 := by
  rw [show rowC9w.hours = 6 by norm_num [rowC9w]]
  unfold round2
  rw [if_neg (by norm_num)]
  rw [show ((6:ℚ) * 100 + 1/2) = 1201/2 by norm_num]
  rw [show ⌊(1201:ℚ)/2⌋ = 600 by norm_num]
  norm_num

theorem recoveredDelta_C9w : recoveredDelta rowC9w (6/10) = 10 := by
  have hc : strContains (strTrim rowC9w.note) "Supplement -" = false := rfl
  unfold recoveredDelta
  rw [round2_rowC9w, hc, if_neg Bool.false_ne_true]
  rw [abs_of_pos (by norm_num : (0:ℚ) < 6)]
  norm_num

theorem adm_C9w_true :
    adjDeleteMatch (strTrim rowC9w.ro) "body60" (strTrim rowC9w.from_stage)
      (strTrim rowC9w.to_stage) (strTrim rowC9w.date) (strTrim rowC9w.tech)
      (recoveredDelta rowC9w (6/10)) adjC9w = true := by
  rw [recoveredDelta_C9w]
  unfold adjDeleteMatch
  simp [adjC9w]
  exact ⟨⟨⟨⟨rfl, rfl⟩, rfl⟩, rfl⟩, rfl⟩

theorem c9w_filter_ne :
    dbC9w.credit_adjustments.filter (adjDeleteMatch (strTrim rowC9w.ro) "body60"
      (strTrim rowC9w.from_stage) (strTrim rowC9w.to_stage) (strTrim rowC9w.date)
      (strTrim rowC9w.tech) (recoveredDelta rowC9w (6/10))) ≠ [] := by
  rw [show dbC9w.credit_adjustments = [adjC9w] from rfl, List.filter_cons, adm_C9w_true]
  simp

/-- C9 (amended): baseline rows (note starting with a milestone label) are never
deleted; for a supplement row whose note yields milestone and share, deletion
filters out the adjustment rows matching ro/milestone/from/to/date/tech whose
delta is within 1e-5 of the delta recovered from the DISPLAYED two-decimal
rounded hours divided by the share (sign from the note) - if at least one row
matches; when no adjustment matches (e.g. the display rounding moved the
recovered delta beyond the tolerance) it falls through to deleting a credit
override with the row's key, leaving credit_adjustments untouched. -/
theorem c9_delete_supplement (db : EffDb) (r : CreditRow) (milestone : String) (share : ℚ) :
    (isBaselineNote (strTrim r.note) = true → delete_selected_credit_row db r = db) ∧
    (isBaselineNote (strTrim r.note) = false →
     strStarts (strTrim r.note) "Supplement " = true →
     noteMilestone (strTrim r.note) = some (milestone, share) →
      (db.credit_adjustments.filter (adjDeleteMatch (strTrim r.ro) milestone
          (strTrim r.from_stage) (strTrim r.to_stage) (strTrim r.date) (strTrim r.tech)
          (recoveredDelta r share)) ≠ [] →
        delete_selected_credit_row db r =
          { db with credit_adjustments := (db.credit_adjustments.filter
              (fun a => ¬ adjDeleteMatch (strTrim r.ro) milestone (strTrim r.from_stage)
                (strTrim r.to_stage) (strTrim r.date) (strTrim r.tech)
                (recoveredDelta r share) a)) }) ∧
      (db.credit_adjustments.filter (adjDeleteMatch (strTrim r.ro) milestone
          (strTrim r.from_stage) (strTrim r.to_stage) (strTrim r.date) (strTrim r.tech)
          (recoveredDelta r share)) = [] →
        delete_selected_credit_row db r =
          delete_override db (strTrim r.ro) (strTrim r.from_stage) (strTrim r.to_stage)
            (strTrim r.note))) := by
  constructor
  · intro h
    exact delete_baseline_skip db r h
  · intro hb hs hm
    exact delete_supplement_eq db r milestone share hb hs hm

/-- C9 counterexample: an adjustment of +0.01h on the Body 60% milestone
(share 0.6) renders as 0.01 displayed hours; the recovered delta 0.01/0.6 =
1/60 differs from the stored 0.01 by 1/150 > 1e-5, so the supplement row's
deletion matches no adjustment and the underlying adjustment row survives:
"deletion removes the underlying CreditAdjustment" is false as stated. -/
theorem c9_counterexample :
    adjC9 ∈ dbC9.credit_adjustments ∧
    rowC9.note = supplementNote adjC9.delta_hours BODY60 ∧
    rowC9.hours = adjC9.delta_hours * BODY60.share ∧
    isBaselineNote (strTrim rowC9.note) = false ∧
    strStarts (strTrim rowC9.note) "Supplement " = true ∧
    delete_selected_credit_row dbC9 rowC9 = dbC9 := by
  refine ⟨List.mem_singleton.mpr rfl, ?_, rfl, rfl, rfl, ?_⟩
  · rw [supplementNote_C9]
    rfl
  · have h := (delete_supplement_eq dbC9 rowC9 "body60" (6/10) rfl rfl rfl).2 c9_filter_emp
    rw [h]
    rfl

/-- Witness for C9: a +10h Body 60% supplement (displayed 6.00h) recovers its
delta exactly, so deleting the row really removes the adjustment and leaves
the overrides untouched. -/
theorem c9_delete_supplement_witness :
    (delete_selected_credit_row dbC9w rowC9w).credit_adjustments = [] ∧
    (delete_selected_credit_row dbC9w rowC9w).credit_overrides = dbC9w.credit_overrides := by
  have h := ((c9_delete_supplement dbC9w rowC9w "body60" (6/10)).2 rfl rfl rfl).1 c9w_filter_ne
  rw [h]
  constructor
  · rw [show dbC9w.credit_adjustments = [adjC9w] from rfl, List.filter_cons]
    simp [adm_C9w_true]
  · rfl

end ProductionTracker
